import Mathlib

/-!
# Technician performance scoring (`computeTechStats`, src/App.jsx)

A shallow embedding of the scoring function of the maintenance portal and the
properties its specification states about it.

Modelling conventions.

* JavaScript values are the primitives the function can tell apart: `undefined`
  (also a missing field), `null`, booleans, numbers and strings.
* Numbers are finite IEEE 754 doubles, each given by the rational it equals.
  The additions of `reduce` and the division by the length round their exact
  result to the nearest double, ties to even (`roundToDouble`). A number that
  is not itself a double enters a sum as the double nearest to it, as a literal
  does. `NaN`, the infinities (overflow beyond the largest double) and negative
  zero are not modelled.
* `===` on these primitives is structural equality.
* The source reads the module constant `DUMMY_TASKS`; here the task list is the
  first argument of `computeTechStats`, and `DUMMY_TASKS` is one such list.
* `computeTechStatsStep` is the same body as a step on a heap of arrays, for the
  properties that speak of what the call leaves in memory.
-/

namespace SmartMaintenance

/-- A JavaScript primitive value. -/
inductive JSVal where
  | undefined
  | null
  | boolean (b : Bool)
  | number (q : ℚ)
  | string (s : String)
deriving DecidableEq

namespace JSVal

/-- The strict equality `a === b` on primitives. -/
def strictEq (a b : JSVal) : Bool := decide (a = b)

/-- The test `typeof v === "number"`. -/
def isNumber : JSVal → Bool
  | number _ => true
  | _ => false

/-- The numeric value of `v` as the operand of `sum + v`. The source applies it
only to values that passed `typeof v === "number"`; on those it is the number
itself. -/
def toNumber : JSVal → ℚ
  | number q => q
  | _ => 0

end JSVal

/-- A task record, with the fields of the entries of `DUMMY_TASKS`. A field that
is missing from the object reads as `undefined`. -/
structure Task where
  id : JSVal := JSVal.undefined
  title : JSVal := JSVal.undefined
  building : JSVal := JSVal.undefined
  category : JSVal := JSVal.undefined
  status : JSVal := JSVal.undefined
  technicianId : JSVal := JSVal.undefined
  responseMinutes : JSVal := JSVal.undefined
  resolutionMinutes : JSVal := JSVal.undefined
  slaMinutes : JSVal := JSVal.undefined
deriving DecidableEq

/-- The record returned by `computeTechStats`; `none` is JavaScript `null`. -/
structure TechStats where
  total : Nat
  resolvedCount : Nat
  pending : Nat
  responseAvg : Option Int
  resolutionAvg : Option Int
  score : Int
deriving DecidableEq

/-- The fixture `DUMMY_TASKS` of the source. -/
def DUMMY_TASKS : List Task :=
  [ { id := JSVal.number 1
      title := JSVal.string "Lift not working – BSN Block"
      building := JSVal.string "BSN Block"
      category := JSVal.string "electricity"
      status := JSVal.string "in_progress"
      technicianId := JSVal.string "tech1"
      responseMinutes := JSVal.number 7
      resolutionMinutes := JSVal.null
      slaMinutes := JSVal.number 30 },
    { id := JSVal.number 2
      title := JSVal.string "Lift inspection pending – Lab Block"
      building := JSVal.string "Lab Block"
      category := JSVal.string "electricity"
      status := JSVal.string "pending"
      technicianId := JSVal.string "tech2"
      responseMinutes := JSVal.null
      resolutionMinutes := JSVal.null
      slaMinutes := JSVal.number 30 },
    { id := JSVal.number 3
      title := JSVal.string "Water leakage – Hostel A (2nd Floor)"
      building := JSVal.string "Hostel A"
      category := JSVal.string "water"
      status := JSVal.string "resolved"
      technicianId := JSVal.string "tech1"
      responseMinutes := JSVal.number 10
      resolutionMinutes := JSVal.number 45
      slaMinutes := JSVal.number 60 } ]

/-- The function `Math.round`: the nearest integer, a half going up. It is exact
on every finite double. -/
def mathRound (x : ℚ) : Int := Int.floor (x + 1 / 2)

/-- The nearest integer, a half going to the even neighbour. -/
def roundHalfEven (x : ℚ) : Int :=
  let f := ⌊x⌋
  if x - f < 1 / 2 then f
  else if 1 / 2 < x - f then f + 1
  else if f % 2 = 0 then f
  else f + 1

/-- The binary exponent of `x`, the floor of `log2 |x|`, and not less than the
exponent -1022 of the smallest normal double. -/
def binadeExp (x : ℚ) : Int := max (Int.log 2 |x|) (-1022)

/-- The spacing of the doubles around `x`: 52 bits below its exponent. -/
def ulp (x : ℚ) : ℚ := (2 : ℚ) ^ (binadeExp x - 52)

/-- The double nearest to the exact number `x`, ties to even: the result of an
IEEE 754 binary64 operation whose exact result is `x`. -/
def roundToDouble (x : ℚ) : ℚ := (roundHalfEven (x / ulp x) : ℚ) * ulp x

/-- The statement `if (avg !== null) score += Math.max(0, cap - avg)`. The
subtraction and the addition are those of the integers, which the doubles
share for operands and results below 2^53 in magnitude; an average of at least
`cap` gives 0 whatever its size. -/
def addBonus (score cap : Int) (avg : Option Int) : Int :=
  match avg with
  | some a => score + max 0 (cap - a)
  | none => score

/-- Lines 94-96 of the source: the score from the resolved count and the two
averages. -/
def scoreOf (resolvedCount : Nat) (responseAvg resolutionAvg : Option Int) : Int :=
  let score : Int := (resolvedCount : Int) * 10
  let score := addBonus score 20 responseAvg
  let score := addBonus score 40 resolutionAvg
  score

/-- The expression
`xs.length > 0 ? Math.round(xs.reduce((sum, t) => sum + f(t), 0) / xs.length) : null`. -/
def roundedAvg (xs : List Task) (f : Task → JSVal) : Option Int :=
  if xs.length > 0 then
    some (mathRound (roundToDouble
      (xs.foldl (fun sum t => roundToDouble (sum + (f t).toNumber)) 0 / (xs.length : ℚ))))
  else
    none

/-- The function `computeTechStats` of the source, over the task list it
filters. -/
def computeTechStats (tasks : List Task) (techId : JSVal) : TechStats :=
  let techTasks := tasks.filter (fun t => t.technicianId.strictEq techId)
  let total := techTasks.length
  let resolvedTasks := techTasks.filter (fun t => t.status.strictEq (JSVal.string "resolved"))
  let resolvedCount := resolvedTasks.length
  let pending := (techTasks.filter (fun t =>
    t.status.strictEq (JSVal.string "pending") ||
      t.status.strictEq (JSVal.string "in_progress"))).length
  let respondedTasks := techTasks.filter (fun t => t.responseMinutes.isNumber)
  let responseAvg := roundedAvg respondedTasks (fun t => t.responseMinutes)
  let resolvedWithTime := resolvedTasks.filter (fun t => t.resolutionMinutes.isNumber)
  let resolutionAvg := roundedAvg resolvedWithTime (fun t => t.resolutionMinutes)
  let score := scoreOf resolvedCount responseAvg resolutionAvg
  { total := total
    resolvedCount := resolvedCount
    pending := pending
    responseAvg := responseAvg
    resolutionAvg := resolutionAvg
    score := score }

/-! ## The body as a step on the heap -/

/-- The arrays in memory, in order of allocation; an array reference is the
position of the array in this list. The body never assigns to a field of a
task (its callbacks only read), so an array is given by the tasks it holds. -/
structure Heap where
  arrays : List (List Task)

/-- The array behind a reference; a dangling reference reads as the empty
array. -/
def Heap.read (h : Heap) (ref : Nat) : List Task := h.arrays.getD ref []

/-- The call `arr.filter(p)`: it allocates a new array holding the elements of
`arr` that pass `p` and returns its reference; `arr` itself is not written. -/
def arrayFilter (ref : Nat) (p : Task → Bool) (h : Heap) : Nat × Heap :=
  (h.arrays.length, { arrays := h.arrays ++ [(h.read ref).filter p] })

/-- The read `arr.length`. -/
def arrayLength (ref : Nat) (h : Heap) : Nat × Heap :=
  ((h.read ref).length, h)

/-- The call `arr.reduce(f, init)` with a callback that only computes. -/
def arrayReduce (ref : Nat) (f : ℚ → Task → ℚ) (init : ℚ) (h : Heap) : ℚ × Heap :=
  ((h.read ref).foldl f init, h)

/-- The expression
`xs.length > 0 ? Math.round(xs.reduce((sum, t) => sum + f(t), 0) / xs.length) : null`
as a step on the heap. -/
def roundedAvgStep (xs : Nat) (f : Task → JSVal) (h : Heap) : Option Int × Heap :=
  let (len, h) := arrayLength xs h
  if len > 0 then
    let (sum, h) := arrayReduce xs (fun sum t => roundToDouble (sum + (f t).toNumber)) 0 h
    let (len2, h) := arrayLength xs h
    (some (mathRound (roundToDouble (sum / (len2 : ℚ)))), h)
  else
    (none, h)

/-- The body of `computeTechStats`, statement by statement, as a step on the
heap; `dummyTasks` is the reference held by the constant `DUMMY_TASKS`. -/
def computeTechStatsStep (dummyTasks : Nat) (techId : JSVal) (h : Heap) : TechStats × Heap :=
  let (techTasks, h) := arrayFilter dummyTasks (fun t => t.technicianId.strictEq techId) h
  let (total, h) := arrayLength techTasks h
  let (resolvedTasks, h) :=
    arrayFilter techTasks (fun t => t.status.strictEq (JSVal.string "resolved")) h
  let (resolvedCount, h) := arrayLength resolvedTasks h
  let (pendingTasks, h) := arrayFilter techTasks (fun t =>
    t.status.strictEq (JSVal.string "pending") ||
      t.status.strictEq (JSVal.string "in_progress")) h
  let (pending, h) := arrayLength pendingTasks h
  let (respondedTasks, h) := arrayFilter techTasks (fun t => t.responseMinutes.isNumber) h
  let (responseAvg, h) := roundedAvgStep respondedTasks (fun t => t.responseMinutes) h
  let (resolvedWithTime, h) :=
    arrayFilter resolvedTasks (fun t => t.resolutionMinutes.isNumber) h
  let (resolutionAvg, h) := roundedAvgStep resolvedWithTime (fun t => t.resolutionMinutes) h
  let score := scoreOf resolvedCount responseAvg resolutionAvg
  ({ total := total
     resolvedCount := resolvedCount
     pending := pending
     responseAvg := responseAvg
     resolutionAvg := resolutionAvg
     score := score }, h)

/-! ## The admin performance table -/

/-- An entry of `DUMMY_TECHNICIANS`. -/
structure Technician where
  id : JSVal
  username : JSVal
  displayName : JSVal
  specialization : JSVal
deriving DecidableEq

/-- The fixture `DUMMY_TECHNICIANS` of the source. -/
def DUMMY_TECHNICIANS : List Technician :=
  [ { id := JSVal.string "tech1"
      username := JSVal.string "tech1"
      displayName := JSVal.string "Technician 1"
      specialization := JSVal.string "Lifts & Electrical" },
    { id := JSVal.string "tech2"
      username := JSVal.string "tech2"
      displayName := JSVal.string "Technician 2"
      specialization := JSVal.string "Plumbing & Civil" } ]

/-- The cell `{avg !== null ? avg : "-"}` of the admin performance table. -/
def avgCell (avg : Option Int) : JSVal :=
  match avg with
  | some a => JSVal.number (a : ℚ)
  | none => JSVal.string "-"

/-- The contents of the cells of one row of the admin performance table
(lines 1204-1218 of the source). -/
def performanceRow (tasks : List Task) (tech : Technician) : List JSVal :=
  let s := computeTechStats tasks tech.id
  [ tech.displayName, tech.specialization, JSVal.number (s.total : ℚ),
    JSVal.number (s.resolvedCount : ℚ), JSVal.number (s.pending : ℚ),
    avgCell s.responseAvg, avgCell s.resolutionAvg, JSVal.number (s.score : ℚ) ]

/-- The rows of the admin performance table: `DUMMY_TECHNICIANS.map(...)`. -/
def performanceRows (tasks : List Task) (techs : List Technician) : List (List JSVal) :=
  techs.map (performanceRow tasks)

/-! ## Sample tasks -/

/-- A resolved task of `tech1` that carries no times. -/
def resolvedNoTime : Task :=
  { status := JSVal.string "resolved"
    technicianId := JSVal.string "tech1" }

/-- The task of scenario 1 of the specification, assigned to `tech1`. -/
def scenarioOneTask : Task :=
  { status := JSVal.string "resolved"
    technicianId := JSVal.string "tech1"
    responseMinutes := JSVal.number 10
    resolutionMinutes := JSVal.number 45 }

/-- A resolved task of `tech1` with the given resolution time and no response
time. -/
def resolvedIn (minutes : ℚ) : Task :=
  { status := JSVal.string "resolved"
    technicianId := JSVal.string "tech1"
    resolutionMinutes := JSVal.number minutes }

/-- A pending task of `tech2`. -/
def otherTechTask : Task :=
  { status := JSVal.string "pending"
    technicianId := JSVal.string "tech2"
    responseMinutes := JSVal.number 3 }

/-- A resolved task of `tech1` with the given response and resolution times. -/
def resolvedWith (response resolution : ℚ) : Task :=
  { status := JSVal.string "resolved"
    technicianId := JSVal.string "tech1"
    responseMinutes := JSVal.number response
    resolutionMinutes := JSVal.number resolution }

/-- A pending task of `tech1` with the given response time. -/
def respondedIn (minutes : ℚ) : Task :=
  { status := JSVal.string "pending"
    technicianId := JSVal.string "tech1"
    responseMinutes := JSVal.number minutes }

/-! ## The averages as the specification words them

These definitions follow the specification (sections 3 and 4.1), not the source;
the claims about the averages compare `computeTechStats` with them. -/

/-- The number held by a value, if it is one. -/
def numberOf? : JSVal → Option ℚ
  | JSVal.number q => some q
  | _ => none

/-- The specification's set R: the present `responseMinutes` of the tasks of
the technician. -/
def specResponseMinutes (tasks : List Task) (techId : JSVal) : List ℚ :=
  (tasks.filter (fun t => decide (t.technicianId = techId))).filterMap
    (fun t => numberOf? t.responseMinutes)

/-- The specification's set S: the present `resolutionMinutes` of the resolved
tasks of the technician. -/
def specResolutionMinutes (tasks : List Task) (techId : JSVal) : List ℚ :=
  (tasks.filter (fun t => decide (t.technicianId = techId ∧
    t.status = JSVal.string "resolved"))).filterMap (fun t => numberOf? t.resolutionMinutes)

/-- The arithmetic mean of a list of numbers. -/
def specMean (xs : List ℚ) : ℚ := xs.sum / (xs.length : ℚ)

/-- Rounding to the nearest integer, halves up: `floor (x + 1/2)`. -/
def specRoundHalfUp (x : ℚ) : Int := ⌊x + 1 / 2⌋

/-! ## Facts about rounding to a double -/

theorem roundHalfEven_intCast (z : Int) : roundHalfEven (z : ℚ) = z := by
  simp [roundHalfEven]

theorem floor_le_roundHalfEven (x : ℚ) : ⌊x⌋ ≤ roundHalfEven x := by
  simp only [roundHalfEven]
  split_ifs <;> omega

theorem roundHalfEven_nonneg (x : ℚ) (h : 0 ≤ x) : 0 ≤ roundHalfEven x :=
  le_trans (Int.floor_nonneg.mpr h) (floor_le_roundHalfEven x)

theorem abs_roundHalfEven_sub_le (x : ℚ) : |(roundHalfEven x : ℚ) - x| ≤ 1 / 2 := by
  have h1 := Int.floor_le x
  have h2 := Int.lt_floor_add_one x
  simp only [roundHalfEven]
  rw [abs_le]
  split_ifs with ha hb hc <;> push_cast <;> constructor <;> linarith

theorem ulp_pos (x : ℚ) : 0 < ulp x := by
  simp only [ulp]
  positivity

theorem roundToDouble_nonneg (x : ℚ) (h : 0 ≤ x) : 0 ≤ roundToDouble x := by
  have hq : 0 ≤ x / ulp x := div_nonneg h (le_of_lt (ulp_pos x))
  have hr : (0 : ℚ) ≤ (roundHalfEven (x / ulp x) : ℚ) := by
    exact_mod_cast roundHalfEven_nonneg _ hq
  exact mul_nonneg hr (le_of_lt (ulp_pos x))

theorem abs_roundToDouble_sub_le (x : ℚ) : |roundToDouble x - x| ≤ ulp x / 2 := by
  have hu := ulp_pos x
  have h := abs_roundHalfEven_sub_le (x / ulp x)
  have hx : x = x / ulp x * ulp x := by field_simp
  have : roundToDouble x - x = ((roundHalfEven (x / ulp x) : ℚ) - x / ulp x) * ulp x := by
    simp only [roundToDouble]
    rw [sub_mul, ← hx]
  rw [this, abs_mul, abs_of_pos hu]
  calc |(roundHalfEven (x / ulp x) : ℚ) - x / ulp x| * ulp x ≤ 1 / 2 * ulp x :=
        mul_le_mul_of_nonneg_right h (le_of_lt hu)
    _ = ulp x / 2 := by ring

theorem roundToDouble_of_grid (x : ℚ) (z : Int) (h : x / ulp x = (z : ℚ)) :
    roundToDouble x = x := by
  have hu := ulp_pos x
  simp only [roundToDouble, h, roundHalfEven_intCast]
  rw [← h]
  field_simp

theorem binadeExp_eq (x : ℚ) (e : Int) (h1 : (2 : ℚ) ^ e ≤ |x|) (h2 : |x| < (2 : ℚ) ^ (e + 1))
    (hmin : -1022 ≤ e) : binadeExp x = e := by
  have hpos : 0 < |x| := lt_of_lt_of_le (by positivity) h1
  have hlog : Int.log 2 |x| = e := by
    apply le_antisymm
    · have := (Int.lt_zpow_iff_log_lt (b := 2) (by norm_num) hpos).mp (by exact_mod_cast h2)
      omega
    · exact (Int.zpow_le_iff_le_log (b := 2) (by norm_num) hpos).mp (by exact_mod_cast h1)
  simp only [binadeExp, hlog]
  omega

theorem roundToDouble_eval (x : ℚ) (e n : Int) (h1 : (2 : ℚ) ^ e ≤ |x|)
    (h2 : |x| < (2 : ℚ) ^ (e + 1)) (hmin : -1022 ≤ e)
    (hn : roundHalfEven (x / (2 : ℚ) ^ (e - 52)) = n) :
    roundToDouble x = (n : ℚ) * (2 : ℚ) ^ (e - 52) := by
  simp only [roundToDouble, ulp, binadeExp_eq x e h1 h2 hmin, hn]

theorem binadeExp_le (x : ℚ) (e : Int) (he : 0 ≤ e) (hx : |x| < (2 : ℚ) ^ (e + 1)) :
    binadeExp x ≤ e := by
  simp only [binadeExp]
  by_cases h0 : x = 0
  · subst h0
    simp [Int.log_of_right_le_zero]
    omega
  · have hpos : 0 < |x| := abs_pos.mpr h0
    have := (Int.lt_zpow_iff_log_lt (b := 2) (by norm_num) hpos).mp (by exact_mod_cast hx)
    omega

theorem roundToDouble_dyadic (a k : Int) (h : binadeExp ((a : ℚ) * (2 : ℚ) ^ k) - 52 ≤ k) :
    roundToDouble ((a : ℚ) * (2 : ℚ) ^ k) = (a : ℚ) * (2 : ℚ) ^ k := by
  obtain ⟨d, hd⟩ := Int.eq_ofNat_of_zero_le (sub_nonneg.mpr h)
  apply roundToDouble_of_grid _ (a * 2 ^ d)
  simp only [ulp]
  have h2 : ((2 : ℚ)) ≠ 0 := by norm_num
  rw [mul_div_assoc, ← zpow_sub₀ h2, hd, zpow_natCast]
  push_cast
  rfl

theorem roundToDouble_intCast (m : Int) (h : |(m : ℚ)| < 2 ^ 53) :
    roundToDouble (m : ℚ) = (m : ℚ) := by
  have hb : binadeExp (m : ℚ) ≤ 52 := binadeExp_le _ 52 (by norm_num) (by
    have h2 : (2 : ℚ) ^ ((52 : Int) + 1) = 2 ^ 53 := by norm_num
    rw [h2]
    exact h)
  have := roundToDouble_dyadic m 0 (by simpa using (by omega : binadeExp (m : ℚ) - 52 ≤ 0))
  simpa using this

theorem roundToDouble_half_intCast (j : Int) (h : |(j : ℚ)| < 2 ^ 53) :
    roundToDouble ((j : ℚ) / 2) = (j : ℚ) / 2 := by
  have hx : |(j : ℚ) / 2| < (2 : ℚ) ^ ((51 : Int) + 1) := by
    rw [abs_div, abs_of_pos (by norm_num : (0 : ℚ) < 2)]
    norm_num
    linarith
  have hb : binadeExp ((j : ℚ) / 2) ≤ 51 := binadeExp_le _ 51 (by norm_num) hx
  have he : (j : ℚ) / 2 = (j : ℚ) * (2 : ℚ) ^ (-1 : Int) := by
    rw [zpow_neg_one]; ring
  rw [he] at hb ⊢
  exact roundToDouble_dyadic j (-1) (by omega)

theorem roundToDouble_natCast (n : Nat) (h : n < 2 ^ 53) :
    roundToDouble (n : ℚ) = (n : ℚ) := by
  have := roundToDouble_intCast (n : Int) (by
    rw [Int.cast_natCast, abs_of_nonneg (Nat.cast_nonneg n)]
    exact_mod_cast h)
  simpa using this

theorem ulp_le (x : ℚ) (hx : (2 : ℚ) ^ (-1022 : Int) ≤ |x|) :
    ulp x ≤ |x| * (2 : ℚ) ^ (-52 : Int) := by
  have hpos : 0 < |x| := lt_of_lt_of_le (by positivity) hx
  have hlog : -1022 ≤ Int.log 2 |x| :=
    (Int.zpow_le_iff_le_log (b := 2) (by norm_num) hpos).mp (by exact_mod_cast hx)
  have hself : (2 : ℚ) ^ Int.log 2 |x| ≤ |x| := by
    exact_mod_cast Int.zpow_log_le_self (b := 2) (by norm_num) hpos
  have hb : binadeExp x = Int.log 2 |x| := by
    simp only [binadeExp]
    omega
  simp only [ulp, hb]
  rw [sub_eq_add_neg, zpow_add₀ (by norm_num : (2 : ℚ) ≠ 0)]
  exact mul_le_mul_of_nonneg_right hself (by positivity)

theorem ulp_of_small (x : ℚ) (h0 : x ≠ 0) (hx : |x| < (2 : ℚ) ^ (-1022 : Int)) :
    ulp x = (2 : ℚ) ^ (-1074 : Int) := by
  have hpos : 0 < |x| := abs_pos.mpr h0
  have hlog : Int.log 2 |x| < -1022 :=
    (Int.lt_zpow_iff_log_lt (b := 2) (by norm_num) hpos).mp (by exact_mod_cast hx)
  have hb : binadeExp x = -1022 := by
    simp only [binadeExp]
    omega
  simp only [ulp, hb]
  norm_num

theorem mathRound_roundToDouble_div (s : Int) (n : Nat) (hn : 0 < n)
    (hs : |(s : ℚ)| < 2 ^ 52) :
    mathRound (roundToDouble ((s : ℚ) / (n : ℚ))) = mathRound ((s : ℚ) / (n : ℚ)) := by
  have hnq : (0 : ℚ) < (n : ℚ) := Nat.cast_pos.mpr hn
  have hn1 : (1 : ℚ) ≤ (n : ℚ) := by exact_mod_cast hn
  by_cases hs0 : s = 0
  · subst hs0
    have := roundToDouble_intCast 0 (by norm_num)
    simp only [Int.cast_zero] at this
    simp [this]
  set x : ℚ := (s : ℚ) / (n : ℚ) with hxdef
  have hxn : x * n = s := by rw [hxdef]; field_simp
  have hx0 : x ≠ 0 := by
    intro h
    rw [h, zero_mul] at hxn
    exact hs0 (by exact_mod_cast hxn.symm)
  have habsn : |x| * n = |(s : ℚ)| := by
    rw [← hxn, abs_mul, abs_of_pos hnq]
  have habs_le : |x| ≤ |(s : ℚ)| := by
    rw [← habsn]
    have := abs_nonneg x
    nlinarith
  set k : Int := ⌊x + 1 / 2⌋ with hkdef
  have hk1 : (k : ℚ) ≤ x + 1 / 2 := Int.floor_le _
  have hk2 : x + 1 / 2 < (k : ℚ) + 1 := Int.lt_floor_add_one _
  have herr := abs_roundToDouble_sub_le x
  rw [abs_le] at herr
  show ⌊roundToDouble x + 1 / 2⌋ = k
  rw [Int.floor_eq_iff]
  -- the integer gaps between `2 s` and `n (2 k ± 1)`
  have hA : (n : Int) * (2 * k - 1) ≤ 2 * s := by
    have : ((n : Int) * (2 * k - 1) : ℚ) ≤ ((2 * s : Int) : ℚ) := by
      push_cast
      nlinarith
    exact_mod_cast this
  have hB : 2 * s + 1 ≤ (n : Int) * (2 * k + 1) := by
    have : ((2 * s : Int) : ℚ) < (((n : Int) * (2 * k + 1) : Int) : ℚ) := by
      push_cast
      nlinarith
    have := (Int.cast_lt (R := ℚ)).mp this
    omega
  have hBq : (2 : ℚ) * s + 1 ≤ (n : ℚ) * (2 * k + 1) := by exact_mod_cast hB
  rcases hA.lt_or_eq with hlt | heq
  · have hA1 : (n : Int) * (2 * k - 1) + 1 ≤ 2 * s := hlt
    have hAq : (n : ℚ) * (2 * k - 1) + 1 ≤ 2 * s := by exact_mod_cast hA1
    by_cases hbig : (2 : ℚ) ^ (-1022 : Int) ≤ |x|
    · have hu := ulp_le x hbig
      have hun : ulp x * n < 1 := by
        have h52 : (2 : ℚ) ^ (-52 : Int) * 2 ^ 52 = 1 := by norm_num
        have hpos52 : (0 : ℚ) < (2 : ℚ) ^ (-52 : Int) := by positivity
        calc ulp x * n ≤ |x| * (2 : ℚ) ^ (-52 : Int) * n :=
              mul_le_mul_of_nonneg_right hu (le_of_lt hnq)
          _ = |(s : ℚ)| * (2 : ℚ) ^ (-52 : Int) := by rw [← habsn]; ring
          _ < 2 ^ 52 * (2 : ℚ) ^ (-52 : Int) := mul_lt_mul_of_pos_right hs hpos52
          _ = 1 := by rw [mul_comm]; exact h52
      constructor
      · have : 0 < (roundToDouble x + 1 / 2 - k) * n := by nlinarith
        have := (mul_pos_iff_of_pos_right hnq).mp this
        linarith
      · have : 0 < ((k : ℚ) + 1 - (roundToDouble x + 1 / 2)) * n := by nlinarith
        have := (mul_pos_iff_of_pos_right hnq).mp this
        linarith
    · have hsmall : |x| < (2 : ℚ) ^ (-1022 : Int) := not_le.mp hbig
      have hu := ulp_of_small x hx0 hsmall
      rw [hu] at herr
      have h1 : (2 : ℚ) ^ (-1022 : Int) < 1 / 4 := by norm_num
      have h2 : (2 : ℚ) ^ (-1074 : Int) / 2 < 1 / 4 := by norm_num
      have hxa := abs_lt.mp (lt_trans hsmall h1)
      have hk0 : k = 0 := by
        have h3 : (k : ℚ) < 1 := by linarith
        have h4 : (-1 : ℚ) < k := by linarith
        have h3' : k < 1 := by exact_mod_cast h3
        have h4' : -1 < k := by exact_mod_cast h4
        omega
      rw [hk0]
      push_cast
      constructor <;> linarith
  · have hxhalf : x = ((2 * k - 1 : Int) : ℚ) / 2 := by
      have : (n : ℚ) * (2 * k - 1) = 2 * s := by exact_mod_cast heq
      have hn0 : (n : ℚ) ≠ 0 := ne_of_gt hnq
      push_cast
      field_simp
      nlinarith
    have hj : |((2 * k - 1 : Int) : ℚ)| < 2 ^ 53 := by
      have : ((2 * k - 1 : Int) : ℚ) = 2 * x := by rw [hxhalf]; ring
      rw [this, abs_mul, abs_of_pos (by norm_num : (0 : ℚ) < 2)]
      linarith
    have hexact := roundToDouble_half_intCast (2 * k - 1) hj
    rw [← hxhalf] at hexact
    rw [hexact]
    constructor <;> linarith

theorem roundToDouble_zero : roundToDouble (0 : ℚ) = 0 := by
  simpa using roundToDouble_natCast 0 (by norm_num)

theorem roundToDouble_two_mul (m : Int) (h : |(m : ℚ)| < 2 ^ 53) :
    roundToDouble (2 * (m : ℚ)) = 2 * (m : ℚ) := by
  have hx : |(m : ℚ) * (2 : ℚ) ^ (1 : Int)| < (2 : ℚ) ^ ((53 : Int) + 1) := by
    rw [abs_mul, abs_of_pos (by norm_num : (0 : ℚ) < (2 : ℚ) ^ (1 : Int))]
    norm_num
    linarith
  have hb : binadeExp ((m : ℚ) * (2 : ℚ) ^ (1 : Int)) ≤ 53 := binadeExp_le _ 53 (by norm_num) hx
  have := roundToDouble_dyadic m 1 (by omega)
  simpa [mul_comm] using this

theorem roundToDouble_eval_pos (x : ℚ) (e n : Int) (hx : 0 < x) (h1 : (2 : ℚ) ^ e ≤ x)
    (h2 : x < (2 : ℚ) ^ (e + 1)) (hmin : -1022 ≤ e)
    (hn : roundHalfEven (x / (2 : ℚ) ^ (e - 52)) = n) :
    roundToDouble x = (n : ℚ) * (2 : ℚ) ^ (e - 52) :=
  roundToDouble_eval x e n (by rwa [abs_of_pos hx]) (by rwa [abs_of_pos hx]) hmin hn


/-! ### Particular roundings used by the examples -/

theorem roundToDouble_two_pow_53 :
    roundToDouble (9007199254740992 : ℚ) = 9007199254740992 := by
  have := roundToDouble_two_mul 4503599627370496 (by norm_num)
  norm_num at this
  exact this

theorem roundToDouble_two_pow_53_add_one :
    roundToDouble (9007199254740993 : ℚ) = 9007199254740992 := by
  have := roundToDouble_eval_pos 9007199254740993 53 4503599627370496 (by norm_num)
    (by norm_num) (by norm_num) (by norm_num) (by
      simp only [roundHalfEven]
      norm_num)
  rw [this]
  norm_num

theorem roundToDouble_two_pow_52 :
    roundToDouble (4503599627370496 : ℚ) = 4503599627370496 := by
  simpa using roundToDouble_natCast 4503599627370496 (by norm_num)

theorem roundToDouble_two_pow_53_add_four :
    roundToDouble (9007199254740996 : ℚ) = 9007199254740996 := by
  have := roundToDouble_two_mul 4503599627370498 (by norm_num)
  norm_num at this
  exact this

theorem roundToDouble_two_pow_53_add_six :
    roundToDouble (9007199254740998 : ℚ) = 9007199254740998 := by
  have := roundToDouble_two_mul 4503599627370499 (by norm_num)
  norm_num at this
  exact this

theorem roundToDouble_three_x :
    roundToDouble (13510798882111479 : ℚ) = 13510798882111480 := by
  have := roundToDouble_eval_pos 13510798882111479 53 6755399441055740 (by norm_num)
    (by norm_num) (by norm_num) (by norm_num) (by
      simp only [roundHalfEven]
      norm_num)
  rw [this]
  norm_num

theorem roundToDouble_three_x_div :
    roundToDouble ((13510798882111480 : ℚ) / 3) = 9007199254740987 / 2 := by
  have := roundToDouble_eval_pos ((13510798882111480 : ℚ) / 3) 51 9007199254740987
    (by norm_num) (by norm_num) (by norm_num) (by norm_num) (by
      simp only [roundHalfEven]
      norm_num)
  rw [this]
  norm_num

theorem mathRound_intCast (z : Int) : mathRound (z : ℚ) = z := by
  simp only [mathRound]
  rw [Int.floor_eq_iff]
  constructor <;> linarith


/-! ## Basic facts about the embedding -/

theorem strictEq_iff (a b : JSVal) : a.strictEq b = true ↔ a = b := by
  simp [JSVal.strictEq]

theorem filter_eq_nil_of_no_match (tasks : List Task) (techId : JSVal)
    (h : ∀ t ∈ tasks, t.technicianId ≠ techId) :
    tasks.filter (fun t => t.technicianId.strictEq techId) = [] := by
  rw [List.filter_eq_nil_iff]
  intro t ht
  simpa [JSVal.strictEq] using h t ht

theorem length_filter_add_le {α : Type} (p q : α → Bool) (l : List α)
    (hpq : ∀ x ∈ l, ¬ (p x = true ∧ q x = true)) :
    (l.filter p).length + (l.filter q).length ≤ l.length := by
  induction l with
  | nil => simp
  | cons x xs ih =>
    have hx := hpq x (List.mem_cons_self x xs)
    have ih2 := ih (fun y hy => hpq y (List.mem_cons_of_mem x hy))
    cases hp : p x <;> cases hq : q x <;> simp_all [List.filter_cons] <;> omega

theorem length_filter_add_eq {α : Type} (p q : α → Bool) (l : List α)
    (hpq : ∀ x ∈ l, ¬ (p x = true ∧ q x = true))
    (hcov : ∀ x ∈ l, p x = true ∨ q x = true) :
    (l.filter p).length + (l.filter q).length = l.length := by
  induction l with
  | nil => simp
  | cons x xs ih =>
    have hx := hpq x (List.mem_cons_self x xs)
    have hc := hcov x (List.mem_cons_self x xs)
    have ih2 := ih (fun y hy => hpq y (List.mem_cons_of_mem x hy))
      (fun y hy => hcov y (List.mem_cons_of_mem x hy))
    cases hp : p x <;> cases hq : q x <;> simp_all [List.filter_cons] <;> omega

theorem resolved_not_pending (v : JSVal) :
    ¬ (v.strictEq (JSVal.string "resolved") = true ∧
      (v.strictEq (JSVal.string "pending") || v.strictEq (JSVal.string "in_progress")) = true) := by
  rintro ⟨h1, h2⟩
  rw [strictEq_iff] at h1
  subst h1
  simp [JSVal.strictEq] at h2

theorem foldl_toNumber_eq (f : Task → JSVal) (xs : List Task) (a : ℚ) :
    xs.foldl (fun sum t => roundToDouble (sum + (f t).toNumber)) a =
      (xs.map (fun t => (f t).toNumber)).foldl (fun sum q => roundToDouble (sum + q)) a := by
  rw [List.foldl_map]

theorem foldl_roundToDouble_nonneg (qs : List ℚ) (a : ℚ) (ha : 0 ≤ a) (h : ∀ q ∈ qs, 0 ≤ q) :
    0 ≤ qs.foldl (fun sum q => roundToDouble (sum + q)) a := by
  induction qs generalizing a with
  | nil => simpa using ha
  | cons q qs ih =>
    simp only [List.foldl_cons]
    apply ih
    · exact roundToDouble_nonneg _ (add_nonneg ha (h q (List.mem_cons_self q qs)))
    · intro r hr
      exact h r (List.mem_cons_of_mem q hr)

theorem foldl_roundToDouble_eq_sum (qs : List ℚ) (a : Int)
    (hint : ∀ q ∈ qs, ∃ n : Int, q = (n : ℚ))
    (hb : |(a : ℚ)| + (qs.map abs).sum < 2 ^ 53) :
    qs.foldl (fun sum q => roundToDouble (sum + q)) (a : ℚ) = (a : ℚ) + qs.sum := by
  induction qs generalizing a with
  | nil => simp
  | cons q qs ih =>
    obtain ⟨n, rfl⟩ := hint q (List.mem_cons_self q qs)
    simp only [List.map_cons, List.sum_cons] at hb
    have hrest : 0 ≤ (qs.map abs).sum := List.sum_nonneg (by
      intro x hx
      obtain ⟨y, _, rfl⟩ := List.mem_map.mp hx
      exact abs_nonneg y)
    have habs : |(a : ℚ) + (n : ℚ)| ≤ |(a : ℚ)| + |(n : ℚ)| := abs_add _ _
    have hstep : roundToDouble ((a : ℚ) + (n : ℚ)) = ((a + n : Int) : ℚ) := by
      have := roundToDouble_intCast (a + n) (by push_cast; linarith)
      push_cast at this ⊢
      exact this
    simp only [List.foldl_cons, List.sum_cons, hstep]
    rw [ih (a + n) (fun r hr => hint r (List.mem_cons_of_mem _ hr)) (by push_cast; linarith)]
    push_cast
    ring

theorem sum_eq_intCast (qs : List ℚ) (hint : ∀ q ∈ qs, ∃ n : Int, q = (n : ℚ)) :
    ∃ s : Int, qs.sum = (s : ℚ) := by
  induction qs with
  | nil => exact ⟨0, by simp⟩
  | cons q qs ih =>
    obtain ⟨n, hn⟩ := hint q (List.mem_cons_self q qs)
    obtain ⟨s, hs⟩ := ih (fun r hr => hint r (List.mem_cons_of_mem _ hr))
    exact ⟨n + s, by simp [hn, hs]⟩

theorem abs_sum_le_sum_map_abs (qs : List ℚ) : |qs.sum| ≤ (qs.map abs).sum := by
  induction qs with
  | nil => simp
  | cons q qs ih =>
    simp only [List.sum_cons, List.map_cons]
    exact le_trans (abs_add _ _) (by linarith)

theorem map_toNumber_filter_isNumber (f : Task → JSVal) (xs : List Task) :
    (xs.filter (fun t => (f t).isNumber)).map (fun t => (f t).toNumber) =
      xs.filterMap (fun t => numberOf? (f t)) := by
  induction xs with
  | nil => simp
  | cons x xs ih =>
    have hhead : (f x).isNumber = true → numberOf? (f x) = some (f x).toNumber := by
      cases f x <;> simp [JSVal.isNumber, JSVal.toNumber, numberOf?]
    have hhead2 : (f x).isNumber = false → numberOf? (f x) = none := by
      cases f x <;> simp [JSVal.isNumber, numberOf?]
    cases hx : (f x).isNumber
    · rw [List.filter_cons_of_neg (by simp [hx])]
      simp only [List.filterMap_cons, hhead2 hx, ih]
    · rw [List.filter_cons_of_pos (by simp [hx]), List.map_cons]
      simp only [List.filterMap_cons, hhead hx, ih]

theorem roundedAvg_eq_spec_of_exact (f : Task → JSVal) (xs : List Task)
    (hint : ∀ q ∈ xs.map (fun t => (f t).toNumber), ∃ n : Int, q = (n : ℚ))
    (hb : ((xs.map (fun t => (f t).toNumber)).map abs).sum < 2 ^ 52) :
    roundedAvg xs f =
      if (xs.map (fun t => (f t).toNumber)).length > 0 then
        some (specRoundHalfUp (specMean (xs.map (fun t => (f t).toNumber))))
      else none := by
  have hsum := foldl_roundToDouble_eq_sum (xs.map (fun t => (f t).toNumber)) 0 hint (by
    simp only [Int.cast_zero, abs_zero, zero_add]
    linarith)
  simp only [Int.cast_zero, zero_add] at hsum
  obtain ⟨s, hs⟩ := sum_eq_intCast _ hint
  have hsabs : |(s : ℚ)| < 2 ^ 52 := by
    rw [← hs]
    exact lt_of_le_of_lt (abs_sum_le_sum_map_abs _) hb
  simp only [roundedAvg, foldl_toNumber_eq, hsum, List.length_map]
  split
  · rename_i hpos
    have hdiv := mathRound_roundToDouble_div s xs.length hpos hsabs
    rw [hs, hdiv]
    simp only [specRoundHalfUp, specMean, mathRound, hs, List.length_map]
  · rfl

theorem roundedAvg_perm_of_exact (f : Task → JSVal) {xs ys : List Task} (h : xs.Perm ys)
    (hint : ∀ q ∈ xs.map (fun t => (f t).toNumber), ∃ n : Int, q = (n : ℚ))
    (hb : ((xs.map (fun t => (f t).toNumber)).map abs).sum < 2 ^ 53) :
    roundedAvg xs f = roundedAvg ys f := by
  have hp := h.map (fun t => (f t).toNumber)
  have hint2 : ∀ q ∈ ys.map (fun t => (f t).toNumber), ∃ n : Int, q = (n : ℚ) :=
    fun q hq => hint q (hp.mem_iff.mpr hq)
  have hb2 : ((ys.map (fun t => (f t).toNumber)).map abs).sum < 2 ^ 53 := by
    rw [← (hp.map abs).sum_eq]
    exact hb
  have h1 := foldl_roundToDouble_eq_sum (xs.map (fun t => (f t).toNumber)) 0 hint (by
    simpa using hb)
  have h2 := foldl_roundToDouble_eq_sum (ys.map (fun t => (f t).toNumber)) 0 hint2 (by
    simpa using hb2)
  simp only [Int.cast_zero] at h1 h2
  simp only [roundedAvg, foldl_toNumber_eq, h1, h2, h.length_eq, hp.sum_eq]

theorem roundedAvg_nonneg (f : Task → JSVal) (xs : List Task)
    (h : ∀ t ∈ xs, 0 ≤ (f t).toNumber) :
    ∀ a, roundedAvg xs f = some a → 0 ≤ a := by
  intro a ha
  simp only [roundedAvg] at ha
  split at ha
  · cases ha
    have hsum := foldl_roundToDouble_nonneg (xs.map (fun t => (f t).toNumber)) 0 (le_refl _) (by
      intro q hq
      obtain ⟨t, ht, rfl⟩ := List.mem_map.mp hq
      exact h t ht)
    rw [← foldl_toNumber_eq] at hsum
    have hq := roundToDouble_nonneg _ (div_nonneg hsum (Nat.cast_nonneg xs.length))
    simp only [mathRound]
    apply Int.floor_nonneg.mpr
    linarith
  · cases ha

theorem toNumber_nonneg_of (v : JSVal) (h : ∀ q, v = JSVal.number q → 0 ≤ q) :
    0 ≤ v.toNumber := by
  cases v with
  | number q => exact h q rfl
  | _ => simp [JSVal.toNumber]

theorem roundedAvg_eq_none_iff (f : Task → JSVal) (xs : List Task) :
    roundedAvg xs f = none ↔ xs = [] := by
  cases xs <;> simp [roundedAvg]

theorem techTasks_resolved_filter (tasks : List Task) (techId : JSVal) :
    (tasks.filter (fun t => t.technicianId.strictEq techId)).filter
        (fun t => t.status.strictEq (JSVal.string "resolved")) =
      tasks.filter (fun t => decide (t.technicianId = techId ∧
        t.status = JSVal.string "resolved")) := by
  rw [List.filter_filter]
  congr 1
  funext t
  simp [JSVal.strictEq, Bool.and_comm]

theorem techTasks_filter (tasks : List Task) (techId : JSVal) :
    tasks.filter (fun t => t.technicianId.strictEq techId) =
      tasks.filter (fun t => decide (t.technicianId = techId)) := by
  congr 1

theorem respondedTasks_map (tasks : List Task) (techId : JSVal) :
    ((tasks.filter (fun t => t.technicianId.strictEq techId)).filter
        (fun t => t.responseMinutes.isNumber)).map (fun t => t.responseMinutes.toNumber) =
      specResponseMinutes tasks techId := by
  rw [techTasks_filter, specResponseMinutes]
  exact map_toNumber_filter_isNumber (fun t => t.responseMinutes) _

theorem resolvedWithTime_map (tasks : List Task) (techId : JSVal) :
    (((tasks.filter (fun t => t.technicianId.strictEq techId)).filter
        (fun t => t.status.strictEq (JSVal.string "resolved"))).filter
        (fun t => t.resolutionMinutes.isNumber)).map (fun t => t.resolutionMinutes.toNumber) =
      specResolutionMinutes tasks techId := by
  rw [techTasks_resolved_filter, specResolutionMinutes]
  exact map_toNumber_filter_isNumber (fun t => t.resolutionMinutes) _

theorem responseAvg_eq_none_iff (tasks : List Task) (techId : JSVal) :
    (computeTechStats tasks techId).responseAvg = none ↔
      ¬ 0 < (specResponseMinutes tasks techId).length := by
  rw [← respondedTasks_map, List.length_map]
  simp only [computeTechStats, roundedAvg_eq_none_iff]
  rw [Nat.pos_iff_ne_zero, not_not, List.length_eq_zero]

theorem resolutionAvg_eq_none_iff (tasks : List Task) (techId : JSVal) :
    (computeTechStats tasks techId).resolutionAvg = none ↔
      ¬ 0 < (specResolutionMinutes tasks techId).length := by
  rw [← resolvedWithTime_map, List.length_map]
  simp only [computeTechStats, roundedAvg_eq_none_iff]
  rw [Nat.pos_iff_ne_zero, not_not, List.length_eq_zero]

theorem responseAvg_eq_spec (tasks : List Task) (techId : JSVal)
    (hint : ∀ q ∈ specResponseMinutes tasks techId, ∃ n : Int, q = (n : ℚ))
    (hb : ((specResponseMinutes tasks techId).map abs).sum < 2 ^ 52) :
    (computeTechStats tasks techId).responseAvg =
      if (specResponseMinutes tasks techId).length > 0 then
        some (specRoundHalfUp (specMean (specResponseMinutes tasks techId)))
      else none := by
  rw [← respondedTasks_map] at hint hb ⊢
  exact roundedAvg_eq_spec_of_exact (fun t => t.responseMinutes) _ hint hb

theorem resolutionAvg_eq_spec (tasks : List Task) (techId : JSVal)
    (hint : ∀ q ∈ specResolutionMinutes tasks techId, ∃ n : Int, q = (n : ℚ))
    (hb : ((specResolutionMinutes tasks techId).map abs).sum < 2 ^ 52) :
    (computeTechStats tasks techId).resolutionAvg =
      if (specResolutionMinutes tasks techId).length > 0 then
        some (specRoundHalfUp (specMean (specResolutionMinutes tasks techId)))
      else none := by
  rw [← resolvedWithTime_map] at hint hb ⊢
  exact roundedAvg_eq_spec_of_exact (fun t => t.resolutionMinutes) _ hint hb

theorem specResponseMinutes_pos_iff (tasks : List Task) (techId : JSVal) :
    0 < (specResponseMinutes tasks techId).length ↔
      ∃ t ∈ tasks, t.technicianId = techId ∧ ∃ q, t.responseMinutes = JSVal.number q := by
  rw [List.length_pos_iff_exists_mem]
  simp only [specResponseMinutes, List.mem_filterMap, List.mem_filter, decide_eq_true_eq]
  constructor
  · rintro ⟨q, t, ⟨ht, hid⟩, hq⟩
    refine ⟨t, ht, hid, q, ?_⟩
    cases hr : t.responseMinutes <;> simp_all [numberOf?]
  · rintro ⟨t, ht, hid, q, hq⟩
    exact ⟨q, t, ⟨ht, hid⟩, by simp [hq, numberOf?]⟩

theorem specResolutionMinutes_pos_iff (tasks : List Task) (techId : JSVal) :
    0 < (specResolutionMinutes tasks techId).length ↔
      ∃ t ∈ tasks, t.technicianId = techId ∧ t.status = JSVal.string "resolved" ∧
        ∃ q, t.resolutionMinutes = JSVal.number q := by
  rw [List.length_pos_iff_exists_mem]
  simp only [specResolutionMinutes, List.mem_filterMap, List.mem_filter, decide_eq_true_eq]
  constructor
  · rintro ⟨q, t, ⟨ht, hid, hst⟩, hq⟩
    refine ⟨t, ht, hid, hst, q, ?_⟩
    cases hr : t.resolutionMinutes <;> simp_all [numberOf?]
  · rintro ⟨t, ht, hid, hst, q, hq⟩
    exact ⟨q, t, ⟨ht, hid, hst⟩, by simp [hq, numberOf?]⟩

theorem specRoundHalfUp_near (x : ℚ) :
    x - 1 / 2 < (specRoundHalfUp x : ℚ) ∧ (specRoundHalfUp x : ℚ) ≤ x + 1 / 2 := by
  have h1 := Int.floor_le (x + 1 / 2)
  have h2 := Int.lt_floor_add_one (x + 1 / 2)
  simp only [specRoundHalfUp]
  constructor <;> linarith

theorem le_addBonus (score cap : Int) (avg : Option Int) : score ≤ addBonus score cap avg := by
  cases avg with
  | none => simp [addBonus]
  | some a =>
    simp only [addBonus]
    have := le_max_left (0 : Int) (cap - a)
    omega

theorem numberOf?_eq_some_iff (v : JSVal) (q : ℚ) : numberOf? v = some q ↔ v = JSVal.number q := by
  cases v <;> simp [numberOf?]

theorem mem_specResponseMinutes (tasks : List Task) (techId : JSVal) (q : ℚ) :
    q ∈ specResponseMinutes tasks techId ↔
      ∃ t ∈ tasks, t.technicianId = techId ∧ t.responseMinutes = JSVal.number q := by
  simp only [specResponseMinutes, List.mem_filterMap, List.mem_filter, decide_eq_true_eq,
    numberOf?_eq_some_iff]
  constructor
  · rintro ⟨t, ⟨ht, hid⟩, hq⟩
    exact ⟨t, ht, hid, hq⟩
  · rintro ⟨t, ht, hid, hq⟩
    exact ⟨t, ⟨ht, hid⟩, hq⟩

theorem mem_specResolutionMinutes (tasks : List Task) (techId : JSVal) (q : ℚ) :
    q ∈ specResolutionMinutes tasks techId ↔
      ∃ t ∈ tasks, t.technicianId = techId ∧ t.status = JSVal.string "resolved" ∧
        t.resolutionMinutes = JSVal.number q := by
  simp only [specResolutionMinutes, List.mem_filterMap, List.mem_filter, decide_eq_true_eq,
    numberOf?_eq_some_iff]
  constructor
  · rintro ⟨t, ⟨ht, hid, hst⟩, hq⟩
    exact ⟨t, ht, hid, hst, hq⟩
  · rintro ⟨t, ht, hid, hst, hq⟩
    exact ⟨t, ⟨ht, hid, hst⟩, hq⟩

theorem addBonus_le (score cap : Int) (avg : Option Int) (hcap : 0 ≤ cap)
    (havg : ∀ a, avg = some a → 0 ≤ a) : addBonus score cap avg ≤ score + cap := by
  cases avg with
  | none => simp only [addBonus]; omega
  | some a =>
    have ha := havg a rfl
    simp only [addBonus]
    have := max_le (a := (0 : Int)) (b := cap - a) (c := cap) hcap (by omega)
    omega

theorem responseAvg_nonneg (tasks : List Task) (techId : JSVal)
    (h : ∀ t ∈ tasks, ∀ q, t.responseMinutes = JSVal.number q → 0 ≤ q) :
    ∀ a, (computeTechStats tasks techId).responseAvg = some a → 0 ≤ a := by
  apply roundedAvg_nonneg
  intro t ht
  exact toNumber_nonneg_of _ (h t (List.mem_of_mem_filter (List.mem_of_mem_filter ht)))

theorem resolutionAvg_nonneg (tasks : List Task) (techId : JSVal)
    (h : ∀ t ∈ tasks, ∀ q, t.resolutionMinutes = JSVal.number q → 0 ≤ q) :
    ∀ a, (computeTechStats tasks techId).resolutionAvg = some a → 0 ≤ a := by
  apply roundedAvg_nonneg
  intro t ht
  exact toNumber_nonneg_of _ (h t (List.mem_of_mem_filter (List.mem_of_mem_filter
    (List.mem_of_mem_filter ht))))

theorem addBonus_mono (s s' cap : Int) (avg : Option Int) (h : s ≤ s') :
    addBonus s cap avg ≤ addBonus s' cap avg := by
  cases avg with
  | none => simpa [addBonus] using h
  | some a => simp only [addBonus]; omega

theorem computeTechStats_congr (tasks tasks2 : List Task) (techId : JSVal)
    (h : tasks.filter (fun t => t.technicianId.strictEq techId) =
      tasks2.filter (fun t => t.technicianId.strictEq techId)) :
    computeTechStats tasks techId = computeTechStats tasks2 techId := by
  simp only [computeTechStats, h]

theorem filter_filter_insert_of_neg {α : Type} (p q : α → Bool) (l1 l2 : List α) (t : α)
    (h : q t = false) :
    ((l1 ++ t :: l2).filter p).filter q = ((l1 ++ l2).filter p).filter q := by
  cases hp : p t <;> simp [List.filter_append, List.filter_cons, hp, h]

theorem isNumber_eq_false_iff (v : JSVal) :
    v.isNumber = false ↔ ∀ q, v ≠ JSVal.number q := by
  cases v <;> simp [JSVal.isNumber]

theorem responseAvg_insert_of_not_number (l1 l2 : List Task) (t : Task) (techId : JSVal)
    (h : ∀ q, t.responseMinutes ≠ JSVal.number q) :
    (computeTechStats (l1 ++ t :: l2) techId).responseAvg =
      (computeTechStats (l1 ++ l2) techId).responseAvg := by
  have hn := (isNumber_eq_false_iff t.responseMinutes).mpr h
  simp only [computeTechStats]
  rw [filter_filter_insert_of_neg _ (fun t => t.responseMinutes.isNumber) l1 l2 t hn]

theorem resolutionAvg_insert_of_not_number (l1 l2 : List Task) (t : Task) (techId : JSVal)
    (h : ∀ q, t.resolutionMinutes ≠ JSVal.number q) :
    (computeTechStats (l1 ++ t :: l2) techId).resolutionAvg =
      (computeTechStats (l1 ++ l2) techId).resolutionAvg := by
  have hn := (isNumber_eq_false_iff t.resolutionMinutes).mpr h
  simp only [computeTechStats, techTasks_resolved_filter]
  rw [filter_filter_insert_of_neg _ (fun t => t.resolutionMinutes.isNumber) l1 l2 t hn]

theorem scoreOf_succ (r : Nat) (a b : Option Int) : scoreOf (r + 1) a b = scoreOf r a b + 10 := by
  cases a <;> cases b <;> simp only [scoreOf, addBonus] <;> push_cast <;> ring

theorem resolvedCount_insert_resolved (l1 l2 : List Task) (t : Task) (techId : JSVal)
    (hid : t.technicianId = techId) (hst : t.status = JSVal.string "resolved") :
    (computeTechStats (l1 ++ t :: l2) techId).resolvedCount =
      (computeTechStats (l1 ++ l2) techId).resolvedCount + 1 := by
  simp only [computeTechStats, techTasks_resolved_filter]
  simp [List.filter_append, List.filter_cons, hid, hst]
  omega

theorem exists_min_mem (xs : List ℚ) (h : 0 < xs.length) : ∃ lo ∈ xs, ∀ q ∈ xs, lo ≤ q := by
  induction xs with
  | nil => simp at h
  | cons x xs ih =>
    cases xs with
    | nil => exact ⟨x, by simp, by simp⟩
    | cons y ys =>
      obtain ⟨lo, hlo, hmin⟩ := ih (by simp)
      by_cases hx : x ≤ lo
      · refine ⟨x, by simp, ?_⟩
        intro q hq
        rcases List.mem_cons.mp hq with rfl | hq
        · exact le_refl _
        · exact le_trans hx (hmin q hq)
      · refine ⟨lo, List.mem_cons_of_mem x hlo, ?_⟩
        intro q hq
        rcases List.mem_cons.mp hq with rfl | hq
        · exact le_of_lt (not_le.mp hx)
        · exact hmin q hq

theorem exists_max_mem (xs : List ℚ) (h : 0 < xs.length) : ∃ hi ∈ xs, ∀ q ∈ xs, q ≤ hi := by
  induction xs with
  | nil => simp at h
  | cons x xs ih =>
    cases xs with
    | nil => exact ⟨x, by simp, by simp⟩
    | cons y ys =>
      obtain ⟨hi, hhi, hmax⟩ := ih (by simp)
      by_cases hx : hi ≤ x
      · refine ⟨x, by simp, ?_⟩
        intro q hq
        rcases List.mem_cons.mp hq with rfl | hq
        · exact le_refl _
        · exact le_trans (hmax q hq) hx
      · refine ⟨hi, List.mem_cons_of_mem x hhi, ?_⟩
        intro q hq
        rcases List.mem_cons.mp hq with rfl | hq
        · exact le_of_lt (not_le.mp hx)
        · exact hmax q hq

theorem length_mul_le_sum (xs : List ℚ) (lo : ℚ) (h : ∀ q ∈ xs, lo ≤ q) :
    (xs.length : ℚ) * lo ≤ xs.sum := by
  induction xs with
  | nil => simp
  | cons x xs ih =>
    have hx := h x (List.mem_cons_self x xs)
    have ih2 := ih (fun q hq => h q (List.mem_cons_of_mem x hq))
    simp only [List.length_cons, List.sum_cons, Nat.cast_add, Nat.cast_one]
    linarith

theorem sum_le_length_mul (xs : List ℚ) (hi : ℚ) (h : ∀ q ∈ xs, q ≤ hi) :
    xs.sum ≤ (xs.length : ℚ) * hi := by
  induction xs with
  | nil => simp
  | cons x xs ih =>
    have hx := h x (List.mem_cons_self x xs)
    have ih2 := ih (fun q hq => h q (List.mem_cons_of_mem x hq))
    simp only [List.length_cons, List.sum_cons, Nat.cast_add, Nat.cast_one]
    linarith

theorem le_specMean (xs : List ℚ) (lo : ℚ) (hpos : 0 < xs.length) (h : ∀ q ∈ xs, lo ≤ q) :
    lo ≤ specMean xs := by
  have hn : (0 : ℚ) < (xs.length : ℚ) := Nat.cast_pos.mpr hpos
  have hsum := length_mul_le_sum xs lo h
  simp only [specMean]
  rw [le_div_iff₀ hn]
  linarith

theorem specMean_le (xs : List ℚ) (hi : ℚ) (hpos : 0 < xs.length) (h : ∀ q ∈ xs, q ≤ hi) :
    specMean xs ≤ hi := by
  have hn : (0 : ℚ) < (xs.length : ℚ) := Nat.cast_pos.mpr hpos
  have hsum := sum_le_length_mul xs hi h
  simp only [specMean]
  rw [div_le_iff₀ hn]
  linarith

theorem specRoundHalfUp_between (x : ℚ) (lo hi : Int) (hlo : (lo : ℚ) ≤ x) (hhi : x ≤ (hi : ℚ)) :
    lo ≤ specRoundHalfUp x ∧ specRoundHalfUp x ≤ hi := by
  simp only [specRoundHalfUp]
  constructor
  · apply Int.le_floor.mpr
    linarith
  · have hlt : ⌊x + 1 / 2⌋ < hi + 1 := by
      apply Int.floor_lt.mpr
      push_cast
      linarith
    omega

theorem specRoundHalfUp_mean_between (xs : List ℚ) (hpos : 0 < xs.length)
    (hint : ∀ q ∈ xs, ∃ n : Int, q = (n : ℚ)) :
    ∃ lo ∈ xs, ∃ hi ∈ xs, (∀ q ∈ xs, lo ≤ q) ∧ (∀ q ∈ xs, q ≤ hi) ∧
      lo ≤ (specRoundHalfUp (specMean xs) : ℚ) ∧ (specRoundHalfUp (specMean xs) : ℚ) ≤ hi := by
  obtain ⟨lo, hlo, hmin⟩ := exists_min_mem xs hpos
  obtain ⟨hi, hhi, hmax⟩ := exists_max_mem xs hpos
  obtain ⟨m, rfl⟩ := hint lo hlo
  obtain ⟨n, rfl⟩ := hint hi hhi
  have hb := specRoundHalfUp_between (specMean xs) m n (le_specMean xs _ hpos hmin)
    (specMean_le xs _ hpos hmax)
  exact ⟨_, hlo, _, hhi, hmin, hmax, by exact_mod_cast hb.1, by exact_mod_cast hb.2⟩

theorem roundedAvg_eq_double (f : Task → JSVal) (xs : List Task) :
    roundedAvg xs f =
      if (xs.map (fun t => (f t).toNumber)).length > 0 then
        some (mathRound (roundToDouble
          ((xs.map (fun t => (f t).toNumber)).foldl (fun sum q => roundToDouble (sum + q)) 0 /
            ((xs.map (fun t => (f t).toNumber)).length : ℚ))))
      else none := by
  simp only [roundedAvg, foldl_toNumber_eq, List.length_map]

theorem responseAvg_eq_double (tasks : List Task) (techId : JSVal) :
    (computeTechStats tasks techId).responseAvg =
      if (specResponseMinutes tasks techId).length > 0 then
        some (mathRound (roundToDouble
          ((specResponseMinutes tasks techId).foldl (fun sum q => roundToDouble (sum + q)) 0 /
            ((specResponseMinutes tasks techId).length : ℚ))))
      else none := by
  rw [← respondedTasks_map]
  exact roundedAvg_eq_double (fun t => t.responseMinutes) _

theorem resolutionAvg_eq_double (tasks : List Task) (techId : JSVal) :
    (computeTechStats tasks techId).resolutionAvg =
      if (specResolutionMinutes tasks techId).length > 0 then
        some (mathRound (roundToDouble
          ((specResolutionMinutes tasks techId).foldl (fun sum q => roundToDouble (sum + q)) 0 /
            ((specResolutionMinutes tasks techId).length : ℚ))))
      else none := by
  rw [← resolvedWithTime_map]
  exact roundedAvg_eq_double (fun t => t.resolutionMinutes) _

theorem resolvedCount_eq (tasks : List Task) (techId : JSVal) :
    (computeTechStats tasks techId).resolvedCount =
      (tasks.filter (fun t => decide (t.technicianId = techId ∧
        t.status = JSVal.string "resolved"))).length := by
  simp only [computeTechStats, techTasks_resolved_filter]

theorem score_eq (tasks : List Task) (techId : JSVal) :
    (computeTechStats tasks techId).score =
      scoreOf (computeTechStats tasks techId).resolvedCount
        (computeTechStats tasks techId).responseAvg
        (computeTechStats tasks techId).resolutionAvg := rfl

theorem responseAvg_of_one (tasks : List Task) (techId : JSVal) (a : ℚ)
    (h : specResponseMinutes tasks techId = [a]) :
    (computeTechStats tasks techId).responseAvg =
      some (mathRound (roundToDouble (roundToDouble (0 + a) / 1))) := by
  rw [responseAvg_eq_double, h]
  norm_num [List.foldl]

theorem responseAvg_of_two (tasks : List Task) (techId : JSVal) (a b : ℚ)
    (h : specResponseMinutes tasks techId = [a, b]) :
    (computeTechStats tasks techId).responseAvg =
      some (mathRound (roundToDouble (roundToDouble (roundToDouble (0 + a) + b) / 2))) := by
  rw [responseAvg_eq_double, h]
  norm_num [List.foldl]

theorem responseAvg_of_three (tasks : List Task) (techId : JSVal) (a b c : ℚ)
    (h : specResponseMinutes tasks techId = [a, b, c]) :
    (computeTechStats tasks techId).responseAvg =
      some (mathRound (roundToDouble
        (roundToDouble (roundToDouble (roundToDouble (0 + a) + b) + c) / 3))) := by
  rw [responseAvg_eq_double, h]
  norm_num [List.foldl]

theorem responseAvg_of_four (tasks : List Task) (techId : JSVal) (a b c d : ℚ)
    (h : specResponseMinutes tasks techId = [a, b, c, d]) :
    (computeTechStats tasks techId).responseAvg =
      some (mathRound (roundToDouble
        (roundToDouble (roundToDouble (roundToDouble (roundToDouble (0 + a) + b) + c) + d) /
          4))) := by
  rw [responseAvg_eq_double, h]
  norm_num [List.foldl]

theorem resolutionAvg_of_one (tasks : List Task) (techId : JSVal) (a : ℚ)
    (h : specResolutionMinutes tasks techId = [a]) :
    (computeTechStats tasks techId).resolutionAvg =
      some (mathRound (roundToDouble (roundToDouble (0 + a) / 1))) := by
  rw [resolutionAvg_eq_double, h]
  norm_num [List.foldl]

theorem resolutionAvg_of_two (tasks : List Task) (techId : JSVal) (a b : ℚ)
    (h : specResolutionMinutes tasks techId = [a, b]) :
    (computeTechStats tasks techId).resolutionAvg =
      some (mathRound (roundToDouble (roundToDouble (roundToDouble (0 + a) + b) / 2))) := by
  rw [resolutionAvg_eq_double, h]
  norm_num [List.foldl]

theorem specResponseMinutes_map_respondedIn (qs : List ℚ) :
    specResponseMinutes (qs.map respondedIn) (JSVal.string "tech1") = qs := by
  induction qs with
  | nil => rfl
  | cons q qs ih =>
    simp only [specResponseMinutes] at ih ⊢
    simpa [List.filter, List.filterMap, respondedIn, numberOf?] using ih

theorem specResolutionMinutes_map_respondedIn (qs : List ℚ) :
    specResolutionMinutes (qs.map respondedIn) (JSVal.string "tech1") = [] := by
  induction qs with
  | nil => rfl
  | cons q qs ih =>
    simp only [specResolutionMinutes] at ih ⊢
    simp [List.filter, List.filterMap, respondedIn, numberOf?]

theorem specResolutionMinutes_map_resolvedIn (qs : List ℚ) :
    specResolutionMinutes (qs.map resolvedIn) (JSVal.string "tech1") = qs := by
  induction qs with
  | nil => rfl
  | cons q qs ih =>
    simp only [specResolutionMinutes] at ih ⊢
    simpa [List.filter, List.filterMap, resolvedIn, numberOf?] using ih

theorem doubleMean_two_pow_53_one :
    mathRound (roundToDouble (roundToDouble (roundToDouble (0 + (9007199254740992 : ℚ)) + 1) / 2)) =
      4503599627370496 := by
  rw [zero_add, roundToDouble_two_pow_53]
  have h1 : (9007199254740992 : ℚ) + 1 = 9007199254740993 := by norm_num
  rw [h1, roundToDouble_two_pow_53_add_one]
  have h2 : (9007199254740992 : ℚ) / 2 = 4503599627370496 := by norm_num
  rw [h2, roundToDouble_two_pow_52]
  exact_mod_cast mathRound_intCast 4503599627370496

theorem doubleMean_big_first :
    mathRound (roundToDouble (roundToDouble (roundToDouble (roundToDouble
      (roundToDouble (0 + (9007199254740992 : ℚ)) + 1) + 1) + 4) / 4)) = 2251799813685249 := by
  rw [zero_add, roundToDouble_two_pow_53]
  have h1 : (9007199254740992 : ℚ) + 1 = 9007199254740993 := by norm_num
  rw [h1, roundToDouble_two_pow_53_add_one, h1, roundToDouble_two_pow_53_add_one]
  have h2 : (9007199254740992 : ℚ) + 4 = 9007199254740996 := by norm_num
  rw [h2, roundToDouble_two_pow_53_add_four]
  have h3 : (9007199254740996 : ℚ) / 4 = 2251799813685249 := by norm_num
  have h4 : roundToDouble (2251799813685249 : ℚ) = 2251799813685249 := by
    simpa using roundToDouble_natCast 2251799813685249 (by norm_num)
  rw [h3, h4]
  exact_mod_cast mathRound_intCast 2251799813685249

theorem doubleMean_big_last :
    mathRound (roundToDouble (roundToDouble (roundToDouble (roundToDouble
      (roundToDouble (0 + (1 : ℚ)) + 1) + 4) + 9007199254740992) / 4)) = 2251799813685250 := by
  have e1 : roundToDouble (1 : ℚ) = 1 := by
    simpa using roundToDouble_natCast 1 (by norm_num)
  have e2 : roundToDouble (2 : ℚ) = 2 := by
    simpa using roundToDouble_natCast 2 (by norm_num)
  have e6 : roundToDouble (6 : ℚ) = 6 := by
    simpa using roundToDouble_natCast 6 (by norm_num)
  have h1 : (1 : ℚ) + 1 = 2 := by norm_num
  have h2 : (2 : ℚ) + 4 = 6 := by norm_num
  have h3 : (6 : ℚ) + 9007199254740992 = 9007199254740998 := by norm_num
  have h4 : (9007199254740998 : ℚ) / 4 = 4503599627370499 / 2 := by norm_num
  have h5 : roundToDouble ((4503599627370499 : ℚ) / 2) = 4503599627370499 / 2 := by
    simpa using roundToDouble_half_intCast 4503599627370499 (by norm_num)
  rw [zero_add, e1, h1, e2, h2, e6, h3, roundToDouble_two_pow_53_add_six, h4, h5]
  simp only [mathRound]
  norm_num

theorem doubleMean_three_x :
    mathRound (roundToDouble (roundToDouble (roundToDouble (roundToDouble
      (0 + (4503599627370493 : ℚ)) + 4503599627370493) + 4503599627370493) / 3)) =
      4503599627370494 := by
  have e1 : roundToDouble (4503599627370493 : ℚ) = 4503599627370493 := by
    simpa using roundToDouble_natCast 4503599627370493 (by norm_num)
  have e2 : roundToDouble (9007199254740986 : ℚ) = 9007199254740986 := by
    simpa using roundToDouble_natCast 9007199254740986 (by norm_num)
  have h1 : (4503599627370493 : ℚ) + 4503599627370493 = 9007199254740986 := by norm_num
  have h2 : (9007199254740986 : ℚ) + 4503599627370493 = 13510798882111479 := by norm_num
  rw [zero_add, e1, h1, e2, h2, roundToDouble_three_x, roundToDouble_three_x_div]
  simp only [mathRound]
  norm_num

theorem responseAvg_perm_of_exact (tasks tasks2 : List Task) (techId : JSVal)
    (h : tasks.Perm tasks2)
    (hint : ∀ q ∈ specResponseMinutes tasks techId, ∃ n : Int, q = (n : ℚ))
    (hb : ((specResponseMinutes tasks techId).map abs).sum < 2 ^ 53) :
    (computeTechStats tasks techId).responseAvg =
      (computeTechStats tasks2 techId).responseAvg := by
  have ht := h.filter (fun t => t.technicianId.strictEq techId)
  rw [← respondedTasks_map] at hint hb
  exact roundedAvg_perm_of_exact (fun t => t.responseMinutes)
    (ht.filter (fun t => t.responseMinutes.isNumber)) hint hb

theorem resolutionAvg_perm_of_exact (tasks tasks2 : List Task) (techId : JSVal)
    (h : tasks.Perm tasks2)
    (hint2 : ∀ q ∈ specResolutionMinutes tasks techId, ∃ n : Int, q = (n : ℚ))
    (hb2 : ((specResolutionMinutes tasks techId).map abs).sum < 2 ^ 53) :
    (computeTechStats tasks techId).resolutionAvg =
      (computeTechStats tasks2 techId).resolutionAvg := by
  have ht := h.filter (fun t => t.technicianId.strictEq techId)
  have hr := ht.filter (fun t => t.status.strictEq (JSVal.string "resolved"))
  rw [← resolvedWithTime_map] at hint2 hb2
  exact roundedAvg_perm_of_exact (fun t => t.resolutionMinutes)
    (hr.filter (fun t => t.resolutionMinutes.isNumber)) hint2 hb2

theorem computeTechStats_eq_of_perm (tasks tasks2 : List Task) (techId : JSVal)
    (h : tasks.Perm tasks2)
    (h1 : (computeTechStats tasks techId).responseAvg =
      (computeTechStats tasks2 techId).responseAvg)
    (h2 : (computeTechStats tasks techId).resolutionAvg =
      (computeTechStats tasks2 techId).resolutionAvg) :
    computeTechStats tasks techId = computeTechStats tasks2 techId := by
  have ht := h.filter (fun t => t.technicianId.strictEq techId)
  have hr := ht.filter (fun t => t.status.strictEq (JSVal.string "resolved"))
  have hp := ht.filter (fun t =>
    t.status.strictEq (JSVal.string "pending") || t.status.strictEq (JSVal.string "in_progress"))
  simp only [computeTechStats] at h1 h2 ⊢
  simp only [ht.length_eq, hr.length_eq, hp.length_eq, h1, h2]

/-! ## Facts about the heap step -/

theorem roundedAvgStep_eq (xs : Nat) (f : Task → JSVal) (h : Heap) :
    roundedAvgStep xs f h = (roundedAvg (h.read xs) f, h) := by
  simp only [roundedAvgStep, arrayLength, arrayReduce, roundedAvg]
  split <;> rfl

/-- The record returned by the step and the heap it leaves: the five arrays of
the `filter` calls are appended, nothing else changes. -/
theorem computeTechStatsStep_eq (dummyTasks : Nat) (techId : JSVal) (h : Heap) :
    ∃ added : List (List Task),
      computeTechStatsStep dummyTasks techId h =
        (computeTechStats (h.read dummyTasks) techId, { arrays := h.arrays ++ added }) := by
  refine ⟨[ (h.read dummyTasks).filter (fun t => t.technicianId.strictEq techId),
    ((h.read dummyTasks).filter (fun t => t.technicianId.strictEq techId)).filter
      (fun t => t.status.strictEq (JSVal.string "resolved")),
    ((h.read dummyTasks).filter (fun t => t.technicianId.strictEq techId)).filter
      (fun t => t.status.strictEq (JSVal.string "pending") ||
        t.status.strictEq (JSVal.string "in_progress")),
    ((h.read dummyTasks).filter (fun t => t.technicianId.strictEq techId)).filter
      (fun t => t.responseMinutes.isNumber),
    (((h.read dummyTasks).filter (fun t => t.technicianId.strictEq techId)).filter
      (fun t => t.status.strictEq (JSVal.string "resolved"))).filter
      (fun t => t.resolutionMinutes.isNumber) ], ?_⟩
  have hadd : ∀ (A L : List (List Task)) (k : Nat),
      Heap.read { arrays := A ++ L } (A.length + k) = L.getD k [] := by
    intro A L k
    simp [Heap.read, List.getD_eq_getElem?_getD, List.getElem?_append_right]
  have hzero : ∀ (A L : List (List Task)),
      Heap.read { arrays := A ++ L } A.length = L.getD 0 [] := fun A L => hadd A L 0
  simp only [computeTechStatsStep, arrayFilter, arrayLength, roundedAvgStep_eq,
    List.append_assoc, List.cons_append, List.nil_append, List.length_append, List.length_cons,
    List.length_nil, Nat.zero_add, Nat.reduceAdd, hadd, hzero, List.getD_cons_zero,
    List.getD_cons_succ, computeTechStats]

theorem Heap.read_append_of_lt (h : Heap) (added : List (List Task)) (ref : Nat)
    (hlt : ref < h.arrays.length) :
    Heap.read { arrays := h.arrays ++ added } ref = h.read ref := by
  simp only [Heap.read, List.getD_eq_getElem?_getD, List.getElem?_append_left hlt]

/-! ## Claims -/

/-- C1: when no task of the list is assigned to the technician (the empty list
included), the result is the all-zero record with both averages null. -/
theorem computeTechStats_no_match (tasks : List Task) (techId : JSVal)
    (h : ∀ t ∈ tasks, t.technicianId ≠ techId) :
    computeTechStats tasks techId =
      { total := 0, resolvedCount := 0, pending := 0,
        responseAvg := none, resolutionAvg := none, score := 0 } := by
  simp [computeTechStats, filter_eq_nil_of_no_match tasks techId h, roundedAvg, scoreOf,
    addBonus]

theorem computeTechStats_no_match_witness :
    (∀ t ∈ DUMMY_TASKS, t.technicianId ≠ JSVal.string "tech9") ∧
      computeTechStats DUMMY_TASKS (JSVal.string "tech9") =
        { total := 0, resolvedCount := 0, pending := 0,
          responseAvg := none, resolutionAvg := none, score := 0 } :=
  ⟨by simp [DUMMY_TASKS], computeTechStats_no_match DUMMY_TASKS (JSVal.string "tech9")
    (by simp [DUMMY_TASKS])⟩

/-- C2: the score is ten times the resolved count, plus `max(0, 20 - responseAvg)`
only when the response average is not null, plus `max(0, 40 - resolutionAvg)`
only when the resolution average is not null; a null average adds nothing. -/
theorem computeTechStats_score_formula (tasks : List Task) (techId : JSVal) :
    (computeTechStats tasks techId).score =
      ((computeTechStats tasks techId).resolvedCount : Int) * 10
        + (match (computeTechStats tasks techId).responseAvg with
            | some a => max 0 (20 - a)
            | none => 0)
        + (match (computeTechStats tasks techId).resolutionAvg with
            | some a => max 0 (40 - a)
            | none => 0) := by
  simp only [computeTechStats, scoreOf, addBonus]
  split <;> split <;> simp

/-- C3: `total` counts the tasks of the technician, `resolvedCount` those of them
with status `resolved`, and `pending` those of them with status `pending` or
`in_progress`. -/
theorem computeTechStats_counts (tasks : List Task) (techId : JSVal) :
    (computeTechStats tasks techId).total =
        tasks.countP (fun t => decide (t.technicianId = techId)) ∧
      (computeTechStats tasks techId).resolvedCount =
        tasks.countP (fun t => decide (t.technicianId = techId ∧
          t.status = JSVal.string "resolved")) ∧
      (computeTechStats tasks techId).pending =
        tasks.countP (fun t => decide (t.technicianId = techId ∧
          (t.status = JSVal.string "pending" ∨ t.status = JSVal.string "in_progress"))) := by
  simp only [computeTechStats, List.countP_eq_length_filter, List.filter_filter]
  refine ⟨?_, ?_, ?_⟩
  · congr 2
  · congr 2
    funext t
    simp [JSVal.strictEq, Bool.and_comm]
  · congr 2
    funext t
    simp [JSVal.strictEq, Bool.and_comm]

/-- C4: when every task's status is one of `pending`, `in_progress` and
`resolved`, the resolved and the pending counts add up to the total. -/
theorem computeTechStats_counts_partition (tasks : List Task) (techId : JSVal)
    (h : ∀ t ∈ tasks, t.status = JSVal.string "pending" ∨
      t.status = JSVal.string "in_progress" ∨ t.status = JSVal.string "resolved") :
    (computeTechStats tasks techId).resolvedCount + (computeTechStats tasks techId).pending =
      (computeTechStats tasks techId).total := by
  simp only [computeTechStats]
  apply length_filter_add_eq
  · intro t _
    exact resolved_not_pending t.status
  · intro t ht
    have hs := h t (List.mem_of_mem_filter ht)
    rcases hs with hs | hs | hs <;> simp [hs, JSVal.strictEq]

theorem computeTechStats_counts_partition_witness :
    (∀ t ∈ DUMMY_TASKS, t.status = JSVal.string "pending" ∨
      t.status = JSVal.string "in_progress" ∨ t.status = JSVal.string "resolved") ∧
      (computeTechStats DUMMY_TASKS (JSVal.string "tech1")).resolvedCount +
        (computeTechStats DUMMY_TASKS (JSVal.string "tech1")).pending =
      (computeTechStats DUMMY_TASKS (JSVal.string "tech1")).total :=
  ⟨by simp [DUMMY_TASKS], computeTechStats_counts_partition DUMMY_TASKS (JSVal.string "tech1")
    (by simp [DUMMY_TASKS])⟩

/-- C5: whatever the status values are, the pending and the resolved counts
together never exceed the total. -/
theorem computeTechStats_counts_le_total (tasks : List Task) (techId : JSVal) :
    (computeTechStats tasks techId).pending + (computeTechStats tasks techId).resolvedCount ≤
      (computeTechStats tasks techId).total := by
  simp only [computeTechStats]
  rw [Nat.add_comm]
  apply length_filter_add_le
  intro t _
  exact resolved_not_pending t.status

/-- C6: the response average is null exactly when no task of the technician has
a numeric `responseMinutes`. -/
theorem computeTechStats_responseAvg_null_iff (tasks : List Task) (techId : JSVal) :
    (computeTechStats tasks techId).responseAvg = none ↔
      ¬ ∃ t ∈ tasks, t.technicianId = techId ∧ ∃ q, t.responseMinutes = JSVal.number q := by
  rw [responseAvg_eq_none_iff, ← specResponseMinutes_pos_iff]

/-- C7: the resolution average is null exactly when no task of the technician
with status `resolved` has a numeric `resolutionMinutes`; a `resolutionMinutes`
on a task with another status does not count. -/
theorem computeTechStats_resolutionAvg_null_iff (tasks : List Task) (techId : JSVal) :
    (computeTechStats tasks techId).resolutionAvg = none ↔
      ¬ ∃ t ∈ tasks, t.technicianId = techId ∧ t.status = JSVal.string "resolved" ∧
        ∃ q, t.resolutionMinutes = JSVal.number q := by
  rw [resolutionAvg_eq_none_iff, ← specResolutionMinutes_pos_iff]

/-- C8, as stated, fails: for the response times 2^53 and 1 the double sum is
2^53, so the code returns 4503599627370496, while the mean rounded half up is
4503599627370497. -/
theorem computeTechStats_responseAvg_value_fails :
    (∃ t ∈ [respondedIn 9007199254740992, respondedIn 1],
        t.technicianId = JSVal.string "tech1" ∧ ∃ q, t.responseMinutes = JSVal.number q) ∧
      (computeTechStats [respondedIn 9007199254740992, respondedIn 1]
        (JSVal.string "tech1")).responseAvg = some 4503599627370496 ∧
      ⌊(specResponseMinutes [respondedIn 9007199254740992, respondedIn 1]
          (JSVal.string "tech1")).sum /
        ((specResponseMinutes [respondedIn 9007199254740992, respondedIn 1]
          (JSVal.string "tech1")).length : ℚ) + 1 / 2⌋ = 4503599627370497 ∧
      ¬ (computeTechStats [respondedIn 9007199254740992, respondedIn 1]
          (JSVal.string "tech1")).responseAvg =
        some ⌊(specResponseMinutes [respondedIn 9007199254740992, respondedIn 1]
            (JSVal.string "tech1")).sum /
          ((specResponseMinutes [respondedIn 9007199254740992, respondedIn 1]
            (JSVal.string "tech1")).length : ℚ) + 1 / 2⌋ := by
  have hL : specResponseMinutes [respondedIn 9007199254740992, respondedIn 1]
      (JSVal.string "tech1") = [9007199254740992, 1] :=
    specResponseMinutes_map_respondedIn [9007199254740992, 1]
  have hcode : (computeTechStats [respondedIn 9007199254740992, respondedIn 1]
      (JSVal.string "tech1")).responseAvg = some 4503599627370496 := by
    rw [responseAvg_of_two _ _ _ _ hL, doubleMean_two_pow_53_one]
  have hspec : ⌊(specResponseMinutes [respondedIn 9007199254740992, respondedIn 1]
        (JSVal.string "tech1")).sum /
      ((specResponseMinutes [respondedIn 9007199254740992, respondedIn 1]
        (JSVal.string "tech1")).length : ℚ) + 1 / 2⌋ = 4503599627370497 := by
    rw [hL]
    norm_num
  refine ⟨⟨respondedIn 1, by simp, rfl, 1, rfl⟩, hcode, hspec, ?_⟩
  rw [hcode, hspec]
  intro heq
  have := Option.some.inj heq
  omega

/-- C8, amended: when some task of the technician has a numeric
`responseMinutes`, and the numeric `responseMinutes` of the technician's tasks
are integers whose absolute values add up to less than 2^52, the response
average is their mean rounded half up, `floor (sum / n + 1/2)`, which lies
within one half of the mean. -/
theorem computeTechStats_responseAvg_value_of_exact (tasks : List Task) (techId : JSVal)
    (h : ∃ t ∈ tasks, t.technicianId = techId ∧ ∃ q, t.responseMinutes = JSVal.number q)
    (hint : ∀ q ∈ specResponseMinutes tasks techId, ∃ n : Int, q = (n : ℚ))
    (hb : ((specResponseMinutes tasks techId).map abs).sum < 2 ^ 52) :
    (computeTechStats tasks techId).responseAvg =
        some ⌊(specResponseMinutes tasks techId).sum /
          ((specResponseMinutes tasks techId).length : ℚ) + 1 / 2⌋ ∧
      ∃ a : Int, (computeTechStats tasks techId).responseAvg = some a ∧
        specMean (specResponseMinutes tasks techId) - 1 / 2 < (a : ℚ) ∧
        (a : ℚ) ≤ specMean (specResponseMinutes tasks techId) + 1 / 2 := by
  have hpos := (specResponseMinutes_pos_iff tasks techId).mpr h
  have hval := responseAvg_eq_spec tasks techId hint hb
  rw [if_pos hpos] at hval
  refine ⟨by rw [hval]; rfl, _, hval, ?_⟩
  exact specRoundHalfUp_near _

theorem computeTechStats_responseAvg_value_of_exact_witness :
    (computeTechStats (List.map respondedIn [7, 10]) (JSVal.string "tech1")).responseAvg =
      some ⌊(specResponseMinutes (List.map respondedIn [7, 10]) (JSVal.string "tech1")).sum /
        ((specResponseMinutes (List.map respondedIn [7, 10])
          (JSVal.string "tech1")).length : ℚ) + 1 / 2⌋ :=
  (computeTechStats_responseAvg_value_of_exact (List.map respondedIn [7, 10])
    (JSVal.string "tech1")
    ⟨respondedIn 7, List.mem_cons_self _ _, rfl, 7, rfl⟩
    (by
      rw [specResponseMinutes_map_respondedIn]
      intro q hq
      simp only [List.mem_cons, List.mem_singleton, List.not_mem_nil, or_false] at hq
      rcases hq with rfl | rfl
      · exact ⟨7, by norm_num⟩
      · exact ⟨10, by norm_num⟩)
    (by
      rw [specResponseMinutes_map_respondedIn]
      norm_num)).1

/-- C9, as stated, fails: for two resolved tasks with resolution times 2^53 and
1 the double sum is 2^53, so the code returns 4503599627370496, while the mean
rounded half up is 4503599627370497. -/
theorem computeTechStats_resolutionAvg_value_fails :
    (∃ t ∈ [resolvedIn 9007199254740992, resolvedIn 1],
        t.technicianId = JSVal.string "tech1" ∧ t.status = JSVal.string "resolved" ∧
          ∃ q, t.resolutionMinutes = JSVal.number q) ∧
      (computeTechStats [resolvedIn 9007199254740992, resolvedIn 1]
        (JSVal.string "tech1")).resolutionAvg = some 4503599627370496 ∧
      ⌊(specResolutionMinutes [resolvedIn 9007199254740992, resolvedIn 1]
          (JSVal.string "tech1")).sum /
        ((specResolutionMinutes [resolvedIn 9007199254740992, resolvedIn 1]
          (JSVal.string "tech1")).length : ℚ) + 1 / 2⌋ = 4503599627370497 ∧
      ¬ (computeTechStats [resolvedIn 9007199254740992, resolvedIn 1]
          (JSVal.string "tech1")).resolutionAvg =
        some ⌊(specResolutionMinutes [resolvedIn 9007199254740992, resolvedIn 1]
            (JSVal.string "tech1")).sum /
          ((specResolutionMinutes [resolvedIn 9007199254740992, resolvedIn 1]
            (JSVal.string "tech1")).length : ℚ) + 1 / 2⌋ := by
  have hL : specResolutionMinutes [resolvedIn 9007199254740992, resolvedIn 1]
      (JSVal.string "tech1") = [9007199254740992, 1] :=
    specResolutionMinutes_map_resolvedIn [9007199254740992, 1]
  have hcode : (computeTechStats [resolvedIn 9007199254740992, resolvedIn 1]
      (JSVal.string "tech1")).resolutionAvg = some 4503599627370496 := by
    rw [resolutionAvg_of_two _ _ _ _ hL, doubleMean_two_pow_53_one]
  have hspec : ⌊(specResolutionMinutes [resolvedIn 9007199254740992, resolvedIn 1]
        (JSVal.string "tech1")).sum /
      ((specResolutionMinutes [resolvedIn 9007199254740992, resolvedIn 1]
        (JSVal.string "tech1")).length : ℚ) + 1 / 2⌋ = 4503599627370497 := by
    rw [hL]
    norm_num
  refine ⟨⟨resolvedIn 1, by simp, rfl, rfl, 1, rfl⟩, hcode, hspec, ?_⟩
  rw [hcode, hspec]
  intro heq
  have := Option.some.inj heq
  omega

/-- C9, amended: when some resolved task of the technician has a numeric
`resolutionMinutes`, and the numeric `resolutionMinutes` of the technician's
resolved tasks are integers whose absolute values add up to less than 2^52,
the resolution average is the mean, rounded half up, of exactly those values;
the `resolutionMinutes` of other tasks are not part of it. -/
theorem computeTechStats_resolutionAvg_value_of_exact (tasks : List Task) (techId : JSVal)
    (h : ∃ t ∈ tasks, t.technicianId = techId ∧ t.status = JSVal.string "resolved" ∧
      ∃ q, t.resolutionMinutes = JSVal.number q)
    (hint : ∀ q ∈ specResolutionMinutes tasks techId, ∃ n : Int, q = (n : ℚ))
    (hb : ((specResolutionMinutes tasks techId).map abs).sum < 2 ^ 52) :
    (computeTechStats tasks techId).resolutionAvg =
        some ⌊(specResolutionMinutes tasks techId).sum /
          ((specResolutionMinutes tasks techId).length : ℚ) + 1 / 2⌋ ∧
      ∃ a : Int, (computeTechStats tasks techId).resolutionAvg = some a ∧
        specMean (specResolutionMinutes tasks techId) - 1 / 2 < (a : ℚ) ∧
        (a : ℚ) ≤ specMean (specResolutionMinutes tasks techId) + 1 / 2 := by
  have hpos := (specResolutionMinutes_pos_iff tasks techId).mpr h
  have hval := resolutionAvg_eq_spec tasks techId hint hb
  rw [if_pos hpos] at hval
  refine ⟨by rw [hval]; rfl, _, hval, ?_⟩
  exact specRoundHalfUp_near _

theorem computeTechStats_resolutionAvg_value_of_exact_witness :
    (computeTechStats (List.map resolvedIn [30, 50]) (JSVal.string "tech1")).resolutionAvg =
      some ⌊(specResolutionMinutes (List.map resolvedIn [30, 50]) (JSVal.string "tech1")).sum /
        ((specResolutionMinutes (List.map resolvedIn [30, 50])
          (JSVal.string "tech1")).length : ℚ) + 1 / 2⌋ :=
  (computeTechStats_resolutionAvg_value_of_exact (List.map resolvedIn [30, 50])
    (JSVal.string "tech1")
    ⟨resolvedIn 30, List.mem_cons_self _ _, rfl, rfl, 30, rfl⟩
    (by
      rw [specResolutionMinutes_map_resolvedIn]
      intro q hq
      simp only [List.mem_cons, List.mem_singleton, List.not_mem_nil, or_false] at hq
      rcases hq with rfl | rfl
      · exact ⟨30, by norm_num⟩
      · exact ⟨50, by norm_num⟩)
    (by
      rw [specResolutionMinutes_map_resolvedIn]
      norm_num)).1

/-- C10: each of the two bonus steps leaves the running score at least as large
as it was, whatever the averages are; so the score is at least ten times the
resolved count and is never negative. -/
theorem computeTechStats_score_bonus_nonneg (tasks : List Task) (techId : JSVal) :
    ((computeTechStats tasks techId).resolvedCount : Int) * 10 ≤
        addBonus (((computeTechStats tasks techId).resolvedCount : Int) * 10) 20
          (computeTechStats tasks techId).responseAvg ∧
      addBonus (((computeTechStats tasks techId).resolvedCount : Int) * 10) 20
          (computeTechStats tasks techId).responseAvg ≤ (computeTechStats tasks techId).score ∧
      ((computeTechStats tasks techId).resolvedCount : Int) * 10 ≤
        (computeTechStats tasks techId).score ∧
      0 ≤ (computeTechStats tasks techId).score := by
  have h1 := le_addBonus (((computeTechStats tasks techId).resolvedCount : Int) * 10) 20
    (computeTechStats tasks techId).responseAvg
  have h2 : addBonus (((computeTechStats tasks techId).resolvedCount : Int) * 10) 20
      (computeTechStats tasks techId).responseAvg ≤ (computeTechStats tasks techId).score :=
    le_addBonus _ 40 (computeTechStats tasks techId).resolutionAvg
  have h0 : (0 : Int) ≤ ((computeTechStats tasks techId).resolvedCount : Int) * 10 := by
    positivity
  exact ⟨h1, h2, le_trans h1 h2, le_trans h0 (le_trans h1 h2)⟩

/-- C11: when every numeric `responseMinutes` and `resolutionMinutes` of the
list is non-negative, the response step adds at most 20 and the resolution step
at most 40, so the score is at most ten times the resolved count plus 60. -/
theorem computeTechStats_score_bonus_le (tasks : List Task) (techId : JSVal)
    (hresp : ∀ t ∈ tasks, ∀ q, t.responseMinutes = JSVal.number q → 0 ≤ q)
    (hres : ∀ t ∈ tasks, ∀ q, t.resolutionMinutes = JSVal.number q → 0 ≤ q) :
    addBonus (((computeTechStats tasks techId).resolvedCount : Int) * 10) 20
          (computeTechStats tasks techId).responseAvg ≤
        ((computeTechStats tasks techId).resolvedCount : Int) * 10 + 20 ∧
      (computeTechStats tasks techId).score ≤
        addBonus (((computeTechStats tasks techId).resolvedCount : Int) * 10) 20
          (computeTechStats tasks techId).responseAvg + 40 ∧
      (computeTechStats tasks techId).score ≤
        ((computeTechStats tasks techId).resolvedCount : Int) * 10 + 60 := by
  have h1 := addBonus_le (((computeTechStats tasks techId).resolvedCount : Int) * 10) 20
    (computeTechStats tasks techId).responseAvg (by decide)
    (responseAvg_nonneg tasks techId hresp)
  have h2 : (computeTechStats tasks techId).score ≤
      addBonus (((computeTechStats tasks techId).resolvedCount : Int) * 10) 20
        (computeTechStats tasks techId).responseAvg + 40 :=
    addBonus_le _ 40 (computeTechStats tasks techId).resolutionAvg (by decide)
      (resolutionAvg_nonneg tasks techId hres)
  exact ⟨h1, h2, by omega⟩

theorem computeTechStats_score_bonus_le_witness :
    (∀ t ∈ DUMMY_TASKS, ∀ q, t.responseMinutes = JSVal.number q → 0 ≤ q) ∧
      (∀ t ∈ DUMMY_TASKS, ∀ q, t.resolutionMinutes = JSVal.number q → 0 ≤ q) ∧
      (computeTechStats DUMMY_TASKS (JSVal.string "tech1")).score ≤
        ((computeTechStats DUMMY_TASKS (JSVal.string "tech1")).resolvedCount : Int) * 10 + 60 :=
  have hresp : ∀ t ∈ DUMMY_TASKS, ∀ q, t.responseMinutes = JSVal.number q → 0 ≤ q := by
    intro t ht q hq
    simp only [DUMMY_TASKS, List.mem_cons, List.mem_singleton, List.not_mem_nil, or_false] at ht
    rcases ht with rfl | rfl | rfl <;> simp at hq <;> subst hq <;> norm_num
  have hres : ∀ t ∈ DUMMY_TASKS, ∀ q, t.resolutionMinutes = JSVal.number q → 0 ≤ q := by
    intro t ht q hq
    simp only [DUMMY_TASKS, List.mem_cons, List.mem_singleton, List.not_mem_nil, or_false] at ht
    rcases ht with rfl | rfl | rfl <;> simp at hq
    subst hq
    norm_num
  ⟨hresp, hres,
    (computeTechStats_score_bonus_le DUMMY_TASKS (JSVal.string "tech1") hresp hres).2.2⟩

/-- C12: for fixed averages (each null or a number) the score formula is
non-decreasing in the resolved count. -/
theorem scoreOf_mono_resolvedCount (responseAvg resolutionAvg : Option Int) (r r2 : Nat)
    (h : r ≤ r2) :
    scoreOf r responseAvg resolutionAvg ≤ scoreOf r2 responseAvg resolutionAvg := by
  simp only [scoreOf]
  apply addBonus_mono
  apply addBonus_mono
  have : (r : Int) ≤ (r2 : Int) := Int.ofNat_le.mpr h
  omega

theorem scoreOf_mono_resolvedCount_witness :
    (1 : Nat) ≤ 3 ∧ scoreOf 1 (some 9) none ≤ scoreOf 3 (some 9) none :=
  ⟨by decide, scoreOf_mono_resolvedCount (some 9) none 1 3 (by decide)⟩

/-- C13, as stated, fails: the response times 2^53, 1, 1, 4 in this order give
the response average 2251799813685249, and the same tasks with the first moved
to the end give 2251799813685250, because the double sums differ. -/
theorem computeTechStats_perm_fails :
    (List.map respondedIn [9007199254740992, 1, 1, 4]).Perm
        (List.map respondedIn [1, 1, 4, 9007199254740992]) ∧
      (computeTechStats (List.map respondedIn [9007199254740992, 1, 1, 4])
        (JSVal.string "tech1")).responseAvg = some 2251799813685249 ∧
      (computeTechStats (List.map respondedIn [1, 1, 4, 9007199254740992])
        (JSVal.string "tech1")).responseAvg = some 2251799813685250 ∧
      computeTechStats (List.map respondedIn [9007199254740992, 1, 1, 4])
          (JSVal.string "tech1") ≠
        computeTechStats (List.map respondedIn [1, 1, 4, 9007199254740992])
          (JSVal.string "tech1") := by
  have hperm : (List.map respondedIn [9007199254740992, 1, 1, 4]).Perm
      (List.map respondedIn [1, 1, 4, 9007199254740992]) :=
    List.Perm.map respondedIn
      (List.perm_append_comm : ([9007199254740992] ++ [1, 1, 4] : List ℚ).Perm
        ([1, 1, 4] ++ [9007199254740992]))
  have hA : (computeTechStats (List.map respondedIn [9007199254740992, 1, 1, 4])
      (JSVal.string "tech1")).responseAvg = some 2251799813685249 := by
    rw [responseAvg_of_four _ _ _ _ _ _ (specResponseMinutes_map_respondedIn _),
      doubleMean_big_first]
  have hB : (computeTechStats (List.map respondedIn [1, 1, 4, 9007199254740992])
      (JSVal.string "tech1")).responseAvg = some 2251799813685250 := by
    rw [responseAvg_of_four _ _ _ _ _ _ (specResponseMinutes_map_respondedIn _),
      doubleMean_big_last]
  refine ⟨hperm, hA, hB, ?_⟩
  intro heq
  have h := congrArg TechStats.responseAvg heq
  rw [hA, hB] at h
  have := Option.some.inj h
  omega

/-- C13, amended: two task lists that are permutations of each other give the
same record when the numeric `responseMinutes` of the technician's tasks, and
the numeric `resolutionMinutes` of the technician's resolved tasks, are
integers whose absolute values add up to less than 2^53. -/
theorem computeTechStats_perm_of_exact (tasks tasks2 : List Task) (techId : JSVal)
    (h : tasks.Perm tasks2)
    (hint : ∀ q ∈ specResponseMinutes tasks techId, ∃ n : Int, q = (n : ℚ))
    (hb : ((specResponseMinutes tasks techId).map abs).sum < 2 ^ 53)
    (hint2 : ∀ q ∈ specResolutionMinutes tasks techId, ∃ n : Int, q = (n : ℚ))
    (hb2 : ((specResolutionMinutes tasks techId).map abs).sum < 2 ^ 53) :
    computeTechStats tasks techId = computeTechStats tasks2 techId := by
  exact computeTechStats_eq_of_perm tasks tasks2 techId h
    (responseAvg_perm_of_exact tasks tasks2 techId h hint hb)
    (resolutionAvg_perm_of_exact tasks tasks2 techId h hint2 hb2)

theorem computeTechStats_perm_of_exact_witness :
    computeTechStats (List.map respondedIn [7, 10, 4]) (JSVal.string "tech1") =
      computeTechStats (List.map respondedIn [10, 4, 7]) (JSVal.string "tech1") :=
  computeTechStats_perm_of_exact (List.map respondedIn [7, 10, 4])
    (List.map respondedIn [10, 4, 7]) (JSVal.string "tech1")
    (List.Perm.map respondedIn
      (List.perm_append_comm : ([7] ++ [10, 4] : List ℚ).Perm ([10, 4] ++ [7])))
    (by
      rw [specResponseMinutes_map_respondedIn]
      intro q hq
      simp only [List.mem_cons, List.mem_singleton, List.not_mem_nil, or_false] at hq
      rcases hq with rfl | rfl | rfl
      · exact ⟨7, by norm_num⟩
      · exact ⟨10, by norm_num⟩
      · exact ⟨4, by norm_num⟩)
    (by
      rw [specResponseMinutes_map_respondedIn]
      norm_num)
    (by
      rw [specResolutionMinutes_map_respondedIn]
      intro q hq
      cases hq)
    (by
      rw [specResolutionMinutes_map_respondedIn]
      norm_num)

/-- C14: the function is total, it returns a record for every task list, and a
task whose `responseMinutes` (or `resolutionMinutes`) is missing, null or of a
type other than number is left out of the response (or resolution) average:
the average is what it is without that task. -/
theorem computeTechStats_ignores_non_numbers (l1 l2 : List Task) (t : Task) (techId : JSVal) :
    (∃ s : TechStats, computeTechStats (l1 ++ t :: l2) techId = s) ∧
      ((∀ q, t.responseMinutes ≠ JSVal.number q) →
        (computeTechStats (l1 ++ t :: l2) techId).responseAvg =
          (computeTechStats (l1 ++ l2) techId).responseAvg) ∧
      ((∀ q, t.resolutionMinutes ≠ JSVal.number q) →
        (computeTechStats (l1 ++ t :: l2) techId).resolutionAvg =
          (computeTechStats (l1 ++ l2) techId).resolutionAvg) :=
  ⟨⟨_, rfl⟩, responseAvg_insert_of_not_number l1 l2 t techId,
    resolutionAvg_insert_of_not_number l1 l2 t techId⟩

theorem computeTechStats_ignores_non_numbers_witness :
    (∀ q, resolvedNoTime.responseMinutes ≠ JSVal.number q) ∧
      (computeTechStats ([] ++ resolvedNoTime :: DUMMY_TASKS) (JSVal.string "tech1")).responseAvg =
        (computeTechStats ([] ++ DUMMY_TASKS) (JSVal.string "tech1")).responseAvg :=
  ⟨(by intro q h; cases h),
    (computeTechStats_ignores_non_numbers [] DUMMY_TASKS resolvedNoTime
      (JSVal.string "tech1")).2.1 (by intro q h; cases h)⟩

/-- C15: two calls with the same arguments return equal records, and every
array that is in memory before the call, the task array among them, is the
same after the call as before it: the body allocates the arrays of its `filter`
calls and writes nothing else. -/
theorem computeTechStatsStep_deterministic (dummyTasks : Nat) (techId : JSVal) (h : Heap)
    (href : dummyTasks < h.arrays.length) :
    (computeTechStatsStep dummyTasks techId h).1 =
        computeTechStats (h.read dummyTasks) techId ∧
      (∀ i, i < h.arrays.length →
        (computeTechStatsStep dummyTasks techId h).2.read i = h.read i) ∧
      (computeTechStatsStep dummyTasks techId (computeTechStatsStep dummyTasks techId h).2).1 =
        (computeTechStatsStep dummyTasks techId h).1 := by
  obtain ⟨added, hstep⟩ := computeTechStatsStep_eq dummyTasks techId h
  obtain ⟨added2, hstep2⟩ := computeTechStatsStep_eq dummyTasks techId
    { arrays := h.arrays ++ added }
  rw [hstep]
  refine ⟨rfl, fun i hi => Heap.read_append_of_lt h added i hi, ?_⟩
  rw [hstep2, Heap.read_append_of_lt h added dummyTasks href]

theorem computeTechStatsStep_deterministic_witness :
    (0 : Nat) < (Heap.mk [DUMMY_TASKS]).arrays.length ∧
      (computeTechStatsStep 0 (JSVal.string "tech1")
          (computeTechStatsStep 0 (JSVal.string "tech1") (Heap.mk [DUMMY_TASKS])).2).1 =
        (computeTechStatsStep 0 (JSVal.string "tech1") (Heap.mk [DUMMY_TASKS])).1 :=
  ⟨Nat.zero_lt_one,
    (computeTechStatsStep_deterministic 0 (JSVal.string "tech1") (Heap.mk [DUMMY_TASKS])
      Nat.zero_lt_one).2.2⟩

/-- C16: a resolved task of the technician without a numeric
`resolutionMinutes` raises the resolved count by one, and so the score by ten
for the same averages, and leaves the resolution average as it is without the
task; the resolved count counts every resolved task of the technician. -/
theorem computeTechStats_resolved_without_time (l1 l2 : List Task) (t : Task) (techId : JSVal)
    (hid : t.technicianId = techId) (hst : t.status = JSVal.string "resolved")
    (hno : ∀ q, t.resolutionMinutes ≠ JSVal.number q) :
    (computeTechStats (l1 ++ t :: l2) techId).resolvedCount =
        (computeTechStats (l1 ++ l2) techId).resolvedCount + 1 ∧
      (computeTechStats (l1 ++ t :: l2) techId).resolutionAvg =
        (computeTechStats (l1 ++ l2) techId).resolutionAvg ∧
      (computeTechStats (l1 ++ t :: l2) techId).score =
        scoreOf (computeTechStats (l1 ++ l2) techId).resolvedCount
          (computeTechStats (l1 ++ t :: l2) techId).responseAvg
          (computeTechStats (l1 ++ l2) techId).resolutionAvg + 10 ∧
      (computeTechStats (l1 ++ t :: l2) techId).resolvedCount =
        (l1 ++ t :: l2).countP (fun u => decide (u.technicianId = techId ∧
          u.status = JSVal.string "resolved")) := by
  have hcount := resolvedCount_insert_resolved l1 l2 t techId hid hst
  have havg := resolutionAvg_insert_of_not_number l1 l2 t techId hno
  refine ⟨hcount, havg, ?_, ?_⟩
  · have hscore : (computeTechStats (l1 ++ t :: l2) techId).score =
        scoreOf (computeTechStats (l1 ++ t :: l2) techId).resolvedCount
          (computeTechStats (l1 ++ t :: l2) techId).responseAvg
          (computeTechStats (l1 ++ t :: l2) techId).resolutionAvg := rfl
    rw [hscore, hcount, havg, scoreOf_succ]
  · simp only [computeTechStats, techTasks_resolved_filter, List.countP_eq_length_filter]

theorem computeTechStats_resolved_without_time_witness :
    (computeTechStats ([] ++ resolvedNoTime :: DUMMY_TASKS) (JSVal.string "tech1")).resolvedCount =
      (computeTechStats ([] ++ DUMMY_TASKS) (JSVal.string "tech1")).resolvedCount + 1 :=
  (computeTechStats_resolved_without_time [] DUMMY_TASKS resolvedNoTime
    (JSVal.string "tech1") rfl rfl (by intro q h; cases h)).1

/-- C17: a technician whose only task is resolved with response time 10 and
resolution time 45 gets total 1, resolved 1, pending 0, response average 10,
resolution average 45 and score 20: the resolution bonus is clamped to 0. -/
theorem computeTechStats_scenario_single_resolved (tasks : List Task) (techId : JSVal)
    (t : Task) (honly : tasks.filter (fun u => decide (u.technicianId = techId)) = [t])
    (hst : t.status = JSVal.string "resolved")
    (hresp : t.responseMinutes = JSVal.number 10)
    (hres : t.resolutionMinutes = JSVal.number 45) :
    computeTechStats tasks techId =
      { total := 1, resolvedCount := 1, pending := 0,
        responseAvg := some 10, resolutionAvg := some 45, score := 20 } := by
  have h10 : roundToDouble (10 : ℚ) = 10 := by
    simpa using roundToDouble_natCast 10 (by norm_num)
  have h45 : roundToDouble (45 : ℚ) = 45 := by
    simpa using roundToDouble_natCast 45 (by norm_num)
  simp only [computeTechStats, techTasks_filter, honly]
  simp [List.filter_cons, hst, hresp, hres, JSVal.strictEq, JSVal.isNumber, JSVal.toNumber,
    roundedAvg, mathRound, scoreOf, addBonus, h10, h45]
  norm_num

theorem computeTechStats_scenario_single_resolved_witness :
    [otherTechTask, scenarioOneTask].filter
        (fun u => decide (u.technicianId = JSVal.string "tech1")) = [scenarioOneTask] ∧
      computeTechStats [otherTechTask, scenarioOneTask] (JSVal.string "tech1") =
        { total := 1, resolvedCount := 1, pending := 0,
          responseAvg := some 10, resolutionAvg := some 45, score := 20 } :=
  ⟨by simp [List.filter_cons, otherTechTask, scenarioOneTask],
    computeTechStats_scenario_single_resolved [otherTechTask, scenarioOneTask]
      (JSVal.string "tech1") scenarioOneTask
      (by simp [List.filter_cons, otherTechTask, scenarioOneTask]) rfl rfl rfl⟩

/-- C18: a technician whose tasks are exactly two resolved tasks with resolution
times 30 and 50, whatever their response times, gets resolved count 2 and
resolution average 40; the resolution step adds 0, so the score is the 20 of
the resolved count plus the response bonus alone. -/
theorem computeTechStats_scenario_threshold (tasks : List Task) (techId : JSVal)
    (t1 t2 : Task) (honly : tasks.filter (fun u => decide (u.technicianId = techId)) = [t1, t2])
    (hst1 : t1.status = JSVal.string "resolved") (hst2 : t2.status = JSVal.string "resolved")
    (hres1 : t1.resolutionMinutes = JSVal.number 30)
    (hres2 : t2.resolutionMinutes = JSVal.number 50) :
    (computeTechStats tasks techId).resolvedCount = 2 ∧
      (computeTechStats tasks techId).resolutionAvg = some 40 ∧
      addBonus (addBonus (2 * 10) 20 (computeTechStats tasks techId).responseAvg) 40
          (computeTechStats tasks techId).resolutionAvg =
        addBonus (2 * 10) 20 (computeTechStats tasks techId).responseAvg + 0 ∧
      (computeTechStats tasks techId).score =
        addBonus 20 20 (computeTechStats tasks techId).responseAvg := by
  have hcount : (computeTechStats tasks techId).resolvedCount = 2 := by
    simp only [computeTechStats, techTasks_filter, honly]
    simp [List.filter_cons, hst1, hst2, JSVal.strictEq]
  have havg : (computeTechStats tasks techId).resolutionAvg = some 40 := by
    simp only [computeTechStats, techTasks_filter, honly]
    have h30 : roundToDouble (30 : ℚ) = 30 := by
      simpa using roundToDouble_natCast 30 (by norm_num)
    have h80 : roundToDouble ((30 : ℚ) + 50) = 80 := by
      have := roundToDouble_natCast 80 (by norm_num)
      norm_num at this ⊢
      exact this
    have h40 : roundToDouble ((80 : ℚ) / 2) = 40 := by
      have := roundToDouble_natCast 40 (by norm_num)
      norm_num at this ⊢
      exact this
    simp [List.filter_cons, hst1, hst2, hres1, hres2, JSVal.strictEq, JSVal.isNumber,
      JSVal.toNumber, roundedAvg, mathRound, h30, h80, h40]
    norm_num
  have hscore : (computeTechStats tasks techId).score =
      scoreOf (computeTechStats tasks techId).resolvedCount
        (computeTechStats tasks techId).responseAvg
        (computeTechStats tasks techId).resolutionAvg := rfl
  refine ⟨hcount, havg, ?_, ?_⟩
  · rw [havg]
    simp [addBonus]
  · rw [hscore, hcount, havg]
    simp [scoreOf, addBonus]

theorem computeTechStats_scenario_threshold_witness :
    [resolvedIn 30, otherTechTask, resolvedIn 50].filter
        (fun u => decide (u.technicianId = JSVal.string "tech1")) =
        [resolvedIn 30, resolvedIn 50] ∧
      (computeTechStats [resolvedIn 30, otherTechTask, resolvedIn 50]
        (JSVal.string "tech1")).resolutionAvg = some 40 :=
  ⟨by simp [List.filter_cons, otherTechTask, resolvedIn],
    (computeTechStats_scenario_threshold [resolvedIn 30, otherTechTask, resolvedIn 50]
      (JSVal.string "tech1") (resolvedIn 30) (resolvedIn 50)
      (by simp [List.filter_cons, otherTechTask, resolvedIn]) rfl rfl rfl rfl).2.1⟩

/-- C19: on the fixture `DUMMY_TASKS`, `tech1` gets total 2, resolved 1,
pending 1, response average 9 (the mean 8.5 rounds up), resolution average 45
and score 21; `tech2` gets total 1, resolved 0, pending 1, both averages null
and score 0; the admin performance table shows these values, with `-` for a
null average. -/
theorem computeTechStats_DUMMY_TASKS :
    computeTechStats DUMMY_TASKS (JSVal.string "tech1") =
        { total := 2, resolvedCount := 1, pending := 1,
          responseAvg := some 9, resolutionAvg := some 45, score := 21 } ∧
      computeTechStats DUMMY_TASKS (JSVal.string "tech2") =
        { total := 1, resolvedCount := 0, pending := 1,
          responseAvg := none, resolutionAvg := none, score := 0 } ∧
      specMean (specResponseMinutes DUMMY_TASKS (JSVal.string "tech1")) = 17 / 2 ∧
      performanceRows DUMMY_TASKS DUMMY_TECHNICIANS =
        [ [ JSVal.string "Technician 1", JSVal.string "Lifts & Electrical", JSVal.number 2,
            JSVal.number 1, JSVal.number 1, JSVal.number 9, JSVal.number 45, JSVal.number 21 ],
          [ JSVal.string "Technician 2", JSVal.string "Plumbing & Civil", JSVal.number 1,
            JSVal.number 0, JSVal.number 1, JSVal.string "-", JSVal.string "-",
            JSVal.number 0 ] ] := by
  have h1 : computeTechStats DUMMY_TASKS (JSVal.string "tech1") =
      { total := 2, resolvedCount := 1, pending := 1,
        responseAvg := some 9, resolutionAvg := some 45, score := 21 } := by
    have h7 : roundToDouble (7 : ℚ) = 7 := by
      simpa using roundToDouble_natCast 7 (by norm_num)
    have h17 : roundToDouble ((7 : ℚ) + 10) = 17 := by
      have := roundToDouble_natCast 17 (by norm_num)
      norm_num at this ⊢
      exact this
    have h172 : roundToDouble ((17 : ℚ) / 2) = 17 / 2 := by
      simpa using roundToDouble_half_intCast 17 (by norm_num)
    have h45 : roundToDouble (45 : ℚ) = 45 := by
      simpa using roundToDouble_natCast 45 (by norm_num)
    simp [computeTechStats, DUMMY_TASKS, List.filter_cons, JSVal.strictEq, JSVal.isNumber,
      JSVal.toNumber, roundedAvg, mathRound, scoreOf, addBonus]
    simp only [h7, h17, h172, h45]
    norm_num
  have h2 : computeTechStats DUMMY_TASKS (JSVal.string "tech2") =
      { total := 1, resolvedCount := 0, pending := 1,
        responseAvg := none, resolutionAvg := none, score := 0 } := by
    simp [computeTechStats, DUMMY_TASKS, List.filter_cons, JSVal.strictEq, JSVal.isNumber,
      roundedAvg, scoreOf, addBonus]
  refine ⟨h1, h2, ?_, ?_⟩
  · simp [specMean, specResponseMinutes, DUMMY_TASKS, List.filter_cons, List.filterMap_cons,
      numberOf?]
    norm_num
  · simp [performanceRows, performanceRow, DUMMY_TECHNICIANS, h1, h2, avgCell]

/-- C20: the record depends only on the technician's own tasks: two task lists
with the same sub-list of tasks of the technician give the same record. -/
theorem computeTechStats_depends_only_on_own_tasks (tasks tasks2 : List Task) (techId : JSVal)
    (h : tasks.filter (fun t => decide (t.technicianId = techId)) =
      tasks2.filter (fun t => decide (t.technicianId = techId))) :
    computeTechStats tasks techId = computeTechStats tasks2 techId := by
  apply computeTechStats_congr
  rw [techTasks_filter, techTasks_filter]
  exact h

theorem computeTechStats_depends_only_on_own_tasks_witness :
    DUMMY_TASKS.filter (fun t => decide (t.technicianId = JSVal.string "tech1")) =
        (otherTechTask :: DUMMY_TASKS).filter
          (fun t => decide (t.technicianId = JSVal.string "tech1")) ∧
      computeTechStats DUMMY_TASKS (JSVal.string "tech1") =
        computeTechStats (otherTechTask :: DUMMY_TASKS) (JSVal.string "tech1") :=
  ⟨by simp [List.filter_cons, otherTechTask],
    computeTechStats_depends_only_on_own_tasks DUMMY_TASKS (otherTechTask :: DUMMY_TASKS)
      (JSVal.string "tech1") (by simp [List.filter_cons, otherTechTask])⟩

/-- C21: the score is not monotone in the tasks: one resolved task with
response and resolution time 0 scores 70, and adding a resolved task of the
same technician with response and resolution time 1000 brings the score down to
20, although the resolved count goes up by one. -/
theorem computeTechStats_score_not_monotone_in_tasks :
    (computeTechStats [resolvedWith 0 0] (JSVal.string "tech1")).score = 70 ∧
      (computeTechStats [resolvedWith 0 0, resolvedWith 1000 1000]
        (JSVal.string "tech1")).score = 20 ∧
      ∃ (techId : JSVal) (tasks : List Task) (t : Task),
        t.technicianId = techId ∧ t.status = JSVal.string "resolved" ∧
        (computeTechStats (tasks ++ [t]) techId).score < (computeTechStats tasks techId).score ∧
        (computeTechStats (tasks ++ [t]) techId).resolvedCount =
          (computeTechStats tasks techId).resolvedCount + 1 := by
  have e1000 : roundToDouble (1000 : ℚ) = 1000 := by
    simpa using roundToDouble_natCast 1000 (by norm_num)
  have e500 : roundToDouble (500 : ℚ) = 500 := by
    simpa using roundToDouble_natCast 500 (by norm_num)
  have hm0 : mathRound (roundToDouble (roundToDouble (0 + (0 : ℚ)) / 1)) = 0 := by
    rw [zero_add, roundToDouble_zero, zero_div, roundToDouble_zero]
    exact_mod_cast mathRound_intCast 0
  have hm500 : mathRound (roundToDouble (roundToDouble (roundToDouble (0 + (0 : ℚ)) + 1000) / 2)) =
      500 := by
    have h2 : (1000 : ℚ) / 2 = 500 := by norm_num
    rw [zero_add, roundToDouble_zero, zero_add, e1000, h2, e500]
    exact_mod_cast mathRound_intCast 500
  have hL1 : specResponseMinutes [resolvedWith 0 0] (JSVal.string "tech1") = [0] := by
    simp [specResponseMinutes, List.filter, List.filterMap, resolvedWith, numberOf?]
  have hS1 : specResolutionMinutes [resolvedWith 0 0] (JSVal.string "tech1") = [0] := by
    simp [specResolutionMinutes, List.filter, List.filterMap, resolvedWith, numberOf?]
  have hL2 : specResponseMinutes [resolvedWith 0 0, resolvedWith 1000 1000]
      (JSVal.string "tech1") = [0, 1000] := by
    simp [specResponseMinutes, List.filter, List.filterMap, resolvedWith, numberOf?]
  have hS2 : specResolutionMinutes [resolvedWith 0 0, resolvedWith 1000 1000]
      (JSVal.string "tech1") = [0, 1000] := by
    simp [specResolutionMinutes, List.filter, List.filterMap, resolvedWith, numberOf?]
  have hc1 : (computeTechStats [resolvedWith 0 0] (JSVal.string "tech1")).resolvedCount = 1 := by
    rw [resolvedCount_eq]
    simp [List.filter, resolvedWith]
  have hc2 : (computeTechStats [resolvedWith 0 0, resolvedWith 1000 1000]
      (JSVal.string "tech1")).resolvedCount = 2 := by
    rw [resolvedCount_eq]
    simp [List.filter, resolvedWith]
  have h1 : (computeTechStats [resolvedWith 0 0] (JSVal.string "tech1")).score = 70 := by
    rw [score_eq, hc1, responseAvg_of_one _ _ _ hL1, resolutionAvg_of_one _ _ _ hS1, hm0]
    simp [scoreOf, addBonus]
  have h2 : (computeTechStats [resolvedWith 0 0, resolvedWith 1000 1000]
      (JSVal.string "tech1")).score = 20 := by
    rw [score_eq, hc2, responseAvg_of_two _ _ _ _ hL2, resolutionAvg_of_two _ _ _ _ hS2, hm500]
    simp [scoreOf, addBonus]
  refine ⟨h1, h2, JSVal.string "tech1", [resolvedWith 0 0], resolvedWith 1000 1000, rfl, rfl,
    ?_, ?_⟩
  · rw [List.singleton_append, h1, h2]
    decide
  · rw [List.singleton_append, hc1, hc2]

/-- C22, as stated, fails: three tasks with the integer response time
4503599627370493 get the response average 4503599627370494, above every
response time of the list, because the double sum of the three is rounded
up. -/
theorem computeTechStats_avg_within_range_fails :
    (∀ t ∈ List.map respondedIn [4503599627370493, 4503599627370493, 4503599627370493],
        ∀ q, t.responseMinutes = JSVal.number q → ∃ n : Int, q = (n : ℚ)) ∧
      (∀ t ∈ List.map respondedIn [4503599627370493, 4503599627370493, 4503599627370493],
        ∀ q, t.resolutionMinutes = JSVal.number q → ∃ n : Int, q = (n : ℚ)) ∧
      (computeTechStats
        (List.map respondedIn [4503599627370493, 4503599627370493, 4503599627370493])
        (JSVal.string "tech1")).responseAvg = some 4503599627370494 ∧
      (∀ q ∈ specResponseMinutes
          (List.map respondedIn [4503599627370493, 4503599627370493, 4503599627370493])
          (JSVal.string "tech1"), q < ((4503599627370494 : Int) : ℚ)) ∧
      ¬ ∀ a, (computeTechStats
          (List.map respondedIn [4503599627370493, 4503599627370493, 4503599627370493])
          (JSVal.string "tech1")).responseAvg = some a →
        ∃ lo ∈ specResponseMinutes
            (List.map respondedIn [4503599627370493, 4503599627370493, 4503599627370493])
            (JSVal.string "tech1"),
          ∃ hi ∈ specResponseMinutes
              (List.map respondedIn [4503599627370493, 4503599627370493, 4503599627370493])
              (JSVal.string "tech1"),
            (∀ q ∈ specResponseMinutes
              (List.map respondedIn [4503599627370493, 4503599627370493, 4503599627370493])
              (JSVal.string "tech1"), lo ≤ q) ∧
            (∀ q ∈ specResponseMinutes
              (List.map respondedIn [4503599627370493, 4503599627370493, 4503599627370493])
              (JSVal.string "tech1"), q ≤ hi) ∧
            lo ≤ (a : ℚ) ∧ (a : ℚ) ≤ hi := by
  have hcode : (computeTechStats
      (List.map respondedIn [4503599627370493, 4503599627370493, 4503599627370493])
      (JSVal.string "tech1")).responseAvg = some 4503599627370494 := by
    rw [responseAvg_of_three _ _ _ _ _ (specResponseMinutes_map_respondedIn _),
      doubleMean_three_x]
  have hlt : ∀ q ∈ specResponseMinutes
      (List.map respondedIn [4503599627370493, 4503599627370493, 4503599627370493])
      (JSVal.string "tech1"), q < ((4503599627370494 : Int) : ℚ) := by
    rw [specResponseMinutes_map_respondedIn]
    intro q hq
    simp only [List.mem_cons, List.mem_singleton, List.not_mem_nil, or_false, or_self] at hq
    rw [hq]
    norm_num
  refine ⟨?_, ?_, hcode, hlt, ?_⟩
  · intro t ht q hq
    simp only [List.map_cons, List.map_nil, List.mem_cons, List.mem_singleton,
      List.not_mem_nil, or_false, or_self] at ht
    subst ht
    exact ⟨4503599627370493, by
      have := JSVal.number.inj hq
      rw [← this]
      norm_num⟩
  · intro t ht q hq
    simp only [List.map_cons, List.map_nil, List.mem_cons, List.mem_singleton,
      List.not_mem_nil, or_false, or_self] at ht
    subst ht
    cases hq
  · intro hall
    obtain ⟨_, _, hi, hhi, _, _, _, hle⟩ := hall 4503599627370494 hcode
    exact absurd hle (not_le.mpr (hlt hi hhi))

/-- C22, amended: when every numeric `responseMinutes` and `resolutionMinutes`
of the list is an integer, and the absolute values of the numeric
`responseMinutes` of the technician's tasks, and of the numeric
`resolutionMinutes` of the technician's resolved tasks, each add up to less
than 2^52, a non-null response average lies between the smallest and the
largest of the former, and a non-null resolution average between the smallest
and the largest of the latter. -/
theorem computeTechStats_avg_within_range_of_exact (tasks : List Task) (techId : JSVal)
    (hresp : ∀ t ∈ tasks, ∀ q, t.responseMinutes = JSVal.number q → ∃ n : Int, q = (n : ℚ))
    (hres : ∀ t ∈ tasks, ∀ q, t.resolutionMinutes = JSVal.number q → ∃ n : Int, q = (n : ℚ))
    (hb : ((specResponseMinutes tasks techId).map abs).sum < 2 ^ 52)
    (hb2 : ((specResolutionMinutes tasks techId).map abs).sum < 2 ^ 52) :
    (∀ a, (computeTechStats tasks techId).responseAvg = some a →
        ∃ lo ∈ specResponseMinutes tasks techId, ∃ hi ∈ specResponseMinutes tasks techId,
          (∀ q ∈ specResponseMinutes tasks techId, lo ≤ q) ∧
          (∀ q ∈ specResponseMinutes tasks techId, q ≤ hi) ∧
          lo ≤ (a : ℚ) ∧ (a : ℚ) ≤ hi) ∧
      (∀ a, (computeTechStats tasks techId).resolutionAvg = some a →
        ∃ lo ∈ specResolutionMinutes tasks techId, ∃ hi ∈ specResolutionMinutes tasks techId,
          (∀ q ∈ specResolutionMinutes tasks techId, lo ≤ q) ∧
          (∀ q ∈ specResolutionMinutes tasks techId, q ≤ hi) ∧
          lo ≤ (a : ℚ) ∧ (a : ℚ) ≤ hi) := by
  have hint : ∀ q ∈ specResponseMinutes tasks techId, ∃ n : Int, q = (n : ℚ) := by
    intro q hq
    obtain ⟨t, ht, _, hr⟩ := (mem_specResponseMinutes tasks techId q).mp hq
    exact hresp t ht q hr
  have hint2 : ∀ q ∈ specResolutionMinutes tasks techId, ∃ n : Int, q = (n : ℚ) := by
    intro q hq
    obtain ⟨t, ht, _, _, hr⟩ := (mem_specResolutionMinutes tasks techId q).mp hq
    exact hres t ht q hr
  constructor
  · intro a ha
    rw [responseAvg_eq_spec tasks techId hint hb] at ha
    split at ha
    · rename_i hpos
      cases ha
      exact specRoundHalfUp_mean_between _ hpos hint
    · cases ha
  · intro a ha
    rw [resolutionAvg_eq_spec tasks techId hint2 hb2] at ha
    split at ha
    · rename_i hpos
      cases ha
      exact specRoundHalfUp_mean_between _ hpos hint2
    · cases ha

theorem computeTechStats_avg_within_range_of_exact_witness :
    ((specResponseMinutes (List.map respondedIn [7, 10]) (JSVal.string "tech1")).map abs).sum <
        2 ^ 52 ∧
      ∀ a, (computeTechStats (List.map respondedIn [7, 10])
          (JSVal.string "tech1")).responseAvg = some a →
        ∃ lo ∈ specResponseMinutes (List.map respondedIn [7, 10]) (JSVal.string "tech1"),
          ∃ hi ∈ specResponseMinutes (List.map respondedIn [7, 10]) (JSVal.string "tech1"),
            (∀ q ∈ specResponseMinutes (List.map respondedIn [7, 10]) (JSVal.string "tech1"),
              lo ≤ q) ∧
            (∀ q ∈ specResponseMinutes (List.map respondedIn [7, 10]) (JSVal.string "tech1"),
              q ≤ hi) ∧
            lo ≤ (a : ℚ) ∧ (a : ℚ) ≤ hi :=
  have hb : ((specResponseMinutes (List.map respondedIn [7, 10])
      (JSVal.string "tech1")).map abs).sum < 2 ^ 52 := by
    rw [specResponseMinutes_map_respondedIn]
    norm_num
  ⟨hb, (computeTechStats_avg_within_range_of_exact (List.map respondedIn [7, 10])
    (JSVal.string "tech1")
    (by
      intro t ht q hq
      simp only [List.map_cons, List.map_nil, List.mem_cons, List.mem_singleton,
        List.not_mem_nil, or_false] at ht
      rcases ht with rfl | rfl
      · exact ⟨7, by rw [← JSVal.number.inj hq]; norm_num⟩
      · exact ⟨10, by rw [← JSVal.number.inj hq]; norm_num⟩)
    (by
      intro t ht q hq
      simp only [List.map_cons, List.map_nil, List.mem_cons, List.mem_singleton,
        List.not_mem_nil, or_false] at ht
      rcases ht with rfl | rfl <;> cases hq)
    hb
    (by
      rw [specResolutionMinutes_map_respondedIn]
      norm_num)).1⟩

end SmartMaintenance
